import Mathlib

/-!
Shallow embedding of src/T2I-CompBench-main/eval_all.py.

The script orchestrates six metric stages (BLIP-VQA, 2D spatial, numeracy,
3D spatial, CLIP similarity, 3-in-1) and an optional credential-gated MLLM
stage, collecting their results into a Python dict and writing that dict as
JSON to a summary file.

External commands and the filesystem are modelled by an oracle `Env`:
`exit` gives each command's return code, `file` the observed state of a
result file at the moment a stage reads it, `getenv` the process
environment, and `depth0`/`depthEffect` the state of the depth-map
directory tree around the 3D-spatial command.  Each stage also records the
list of external invocations it performs (a `Trace`), so that claims about
"which commands ran" are statable.

Python exceptions are modelled with `Except Err`; the orchestrator's
per-stage `try/except` blocks become `tryStage`/`mllmStage`.
-/

/-- A Python `float` as it passes through `json.load`/`json.dump`: the
three non-finite values (which `json.load` accepts as the literals `NaN`,
`Infinity`, `-Infinity` and `json.dump` re-emits that way), and finite
floats.  A finite float is represented by its shortest `repr` token
(CPython guarantees `float(repr(x)) == x` and `json.dump` writes exactly
`repr(x)`), so equality of finite floats is exact-value equality of the
decimal tokens. -/
inductive PyFloat where
  | nan : PyFloat
  | inf : PyFloat
  | ninf : PyFloat
  | finite : List Char → PyFloat

/-- Parsed JSON values (`json.load` results and the placeholder strings the
script stores): Python `None`, `bool`, `int`, `float`, `str`, `list`,
`dict`. -/
inductive Json where
  | null : Json
  | bool : Bool → Json
  | num : Int → Json
  | fnum : PyFloat → Json
  | str : String → Json
  | arr : List Json → Json
  | obj : List (String × Json) → Json

/-- The Results Mapping: a Python dict with string keys, kept in insertion
order (as Python dicts are). -/
abbrev RMap := List (String × Json)

/-- Python `d[k] = v`: update in place if the key exists, else append. -/
def dictSet : RMap → String → Json → RMap
  | [], k, v => [(k, v)]
  | (k', v') :: m, k, v => if k' = k then (k', v) :: m else (k', v') :: dictSet m k v

/-- Python `d.get(k)`: lookup by key. -/
def dictGet : RMap → String → Option Json
  | [], _ => none
  | (k', v) :: m, k => if k' = k then some v else dictGet m k

/-- `ROOT = Path(__file__).absolute().parent`: the (run-time dependent)
absolute repository root, modelled as an abstract fixed path string. -/
def ROOT : String := "/T2I-CompBench-main"

/-- `EXAMPLES = (ROOT / "examples").resolve()`. -/
def EXAMPLES : String := ROOT ++ "/examples"

/-- `SAMPLES = EXAMPLES / "samples"`. -/
def SAMPLES : String := EXAMPLES ++ "/samples"

/-- `LABELS = EXAMPLES / "labels"`. -/
def LABELS : String := EXAMPLES ++ "/labels"

/-- What a stage observes at a result-file path when it checks
`path.exists()` and then runs `json.load(open(path))`: the file is absent,
or present but not valid JSON (so `json.load` raises, with some message),
or present with a parsed JSON value. -/
inductive FileObs where
  | absent : FileObs
  | malformed : String → FileObs
  | content : Json → FileObs

/-- Python exceptions that the script can raise: `RuntimeError` from the
process runner, `OSError`s from filesystem calls, and JSON decode errors
from `json.load`.  Each carries its `str(e)` message. -/
inductive Err where
  | runtimeError : String → Err
  | osError : String → Err
  | jsonError : String → Err

/-- `str(e)` of a modelled exception (used by `f"Failed: {e}"`). -/
def errMsg : Err → String
  | .runtimeError m => m
  | .osError m => m
  | .jsonError m => m

/-- One external process invocation: the command string and the working
directory passed to `subprocess.run`. -/
structure Invocation where
  cmd : String
  cwd : String

/-- The sequence of external invocations performed so far. -/
abbrev Trace := List Invocation

/-- The part of the filesystem that `fix_depth_structure` operates on:
`wrong` is `LABELS/depth/examples/samples` (the misplaced directory:
`none` if absent, otherwise the names of the files it contains), `correct`
is `LABELS/depth/samples` (the intended sibling directory). -/
structure DepthFS where
  wrong : Option (List String)
  correct : Option (List String)

/-- The oracle for the external world: command exit codes, result-file
observations, the process environment, and the depth-map directory tree
(its state before the run, and the 3D-spatial command's effect on it). -/
structure Env where
  exit : String → String → Int
  file : String → FileObs
  getenv : String → Option String
  depth0 : DepthFS
  depthEffect : DepthFS → DepthFS

/-- `runCmd`: run a command in a working directory via `subprocess.run`;
raise `RuntimeError(f"Command failed: {cmd}")` on non-zero exit status.
The invocation is appended to the trace in either case (the process did
run). -/
def runCmd (E : Env) (tr : Trace) (cmd cwd : String) : Trace × Except Err Unit :=
  let tr' := tr ++ [⟨cmd, cwd⟩]
  if E.exit cmd cwd = 0 then (tr', Except.ok ())
  else (tr', Except.error (Err.runtimeError ("Command failed: " ++ cmd)))

/-- `ensure_dirs`: `mkdir(parents=True, exist_ok=True)` for
`LABELS/depth` and `LABELS/depth/samples` — on the depth-tree model it
makes the correct target directory present (keeping any files already
there) and never raises. -/
def ensure_dirs (fs : DepthFS) : DepthFS :=
  { fs with correct := some (fs.correct.getD []) }

/-- One step of the move loop in `fix_depth_structure`:
`f.rename(correct_dir / f.name)` — on a names-of-files model, moving file
`f` into the target directory overwrites a same-named file if present. -/
def moveOne (cs : List String) (f : String) : List String :=
  if f ∈ cs then cs else cs ++ [f]

/-- `fix_depth_structure`: if the misplaced directory
`LABELS/depth/examples/samples` exists, move every file it contains into
`LABELS/depth/samples` via `Path.rename`, then `rm -rf` the extra
`LABELS/depth/examples` tree.  `Path.rename` raises `FileNotFoundError`
when the target's parent directory does not exist, which happens on the
first file whenever the correct directory is absent.  The misplaced
directory's entries are modelled as plain files (the depth-estimation tool
writes depth-map files there). -/
def fix_depth_structure (fs : DepthFS) : Except Err DepthFS :=
  match fs.wrong with
  | none => Except.ok fs
  | some files =>
    match fs.correct with
    | some cs => Except.ok { wrong := none, correct := some (files.foldl moveOne cs) }
    | none =>
      match files with
      | [] => Except.ok { wrong := none, correct := none }
      | _ :: _ => Except.error (Err.osError "FileNotFoundError")

/-! ### The six metric stages -/

def cmd_vqa : String := "python BLIP_vqa.py --out_dir=../examples"
def cwd_vqa : String := ROOT ++ "/BLIPvqa_eval"
def path_vqa : String := EXAMPLES ++ "/annotation_blip/vqa_result.json"

def cmd_2d : String := "python 2D_spatial_eval.py --outpath=../examples"
def cwd_2d : String := ROOT ++ "/UniDet_eval"
def path_2d : String := EXAMPLES ++ "/labels/annotation_obj_detection_2d/vqa_result.json"

def cmd_num : String := "python numeracy_eval.py --outpath=../examples"
def cwd_num : String := ROOT ++ "/UniDet_eval"
def path_num : String := EXAMPLES ++ "/annotation_num/vqa_result.json"

def cmd_3d : String := "python 3D_spatial_eval.py --outpath=../examples"
def cwd_3d : String := ROOT ++ "/UniDet_eval"
def path_3d : String := EXAMPLES ++ "/labels/annotation_obj_detection_3d/vqa_result.json"

def cmd_clip : String := "python CLIP_similarity.py --outpath=../examples"
def cwd_clip : String := ROOT ++ "/CLIPScore_eval"
def path_clip : String := EXAMPLES ++ "/annotation_clip/vqa_result.json"

def cmd_3in1 : String := "python 3_in_1.py --outpath=../examples"
def cwd_3in1 : String := ROOT ++ "/3_in_1_eval"
def path_3in1 : String := EXAMPLES ++ "/annotation_3_in_1/vqa_result.json"

/-- `eval_vqa`: BLIP-VQA (attribute binding). -/
def eval_vqa (E : Env) (results : RMap) (tr : Trace) : Trace × Except Err RMap :=
  match runCmd E tr cmd_vqa cwd_vqa with
  | (tr', Except.error e) => (tr', Except.error e)
  | (tr', Except.ok _) =>
    match E.file path_vqa with
    | .content j => (tr', Except.ok (dictSet results "VQA" j))
    | .malformed m => (tr', Except.error (Err.jsonError m))
    | .absent => (tr', Except.ok (dictSet results "VQA" (Json.str "No result produced.")))

/-- `eval_2d_spatial`: UniDet 2D spatial evaluation. -/
def eval_2d_spatial (E : Env) (results : RMap) (tr : Trace) : Trace × Except Err RMap :=
  match runCmd E tr cmd_2d cwd_2d with
  | (tr', Except.error e) => (tr', Except.error e)
  | (tr', Except.ok _) =>
    match E.file path_2d with
    | .content j => (tr', Except.ok (dictSet results "2D_Spatial" j))
    | .malformed m => (tr', Except.error (Err.jsonError m))
    | .absent => (tr', Except.ok (dictSet results "2D_Spatial" (Json.str "No results.")))

/-- `eval_numeracy`: UniDet numeracy evaluation. -/
def eval_numeracy (E : Env) (results : RMap) (tr : Trace) : Trace × Except Err RMap :=
  match runCmd E tr cmd_num cwd_num with
  | (tr', Except.error e) => (tr', Except.error e)
  | (tr', Except.ok _) =>
    match E.file path_num with
    | .content j => (tr', Except.ok (dictSet results "Numeracy" j))
    | .malformed m => (tr', Except.error (Err.jsonError m))
    | .absent => (tr', Except.ok (dictSet results "Numeracy" (Json.str "No results.")))

/-- `eval_3d_spatial`: UniDet 3D spatial evaluation — `ensure_dirs()`, run
the external command (whose effect on the depth tree is `E.depthEffect`),
then `fix_depth_structure()` (whose exceptions propagate), then read the
result file. -/
def eval_3d_spatial (E : Env) (results : RMap) (tr : Trace) : Trace × Except Err RMap :=
  match runCmd E tr cmd_3d cwd_3d with
  | (tr', Except.error e) => (tr', Except.error e)
  | (tr', Except.ok _) =>
    match fix_depth_structure (E.depthEffect (ensure_dirs E.depth0)) with
    | Except.error e => (tr', Except.error e)
    | Except.ok _ =>
      match E.file path_3d with
      | .content j => (tr', Except.ok (dictSet results "3D_Spatial" j))
      | .malformed m => (tr', Except.error (Err.jsonError m))
      | .absent => (tr', Except.ok (dictSet results "3D_Spatial" (Json.str "No results.")))

/-- `eval_clip_similarity`: CLIPScore for non-spatial relationships. -/
def eval_clip_similarity (E : Env) (results : RMap) (tr : Trace) : Trace × Except Err RMap :=
  match runCmd E tr cmd_clip cwd_clip with
  | (tr', Except.error e) => (tr', Except.error e)
  | (tr', Except.ok _) =>
    match E.file path_clip with
    | .content j => (tr', Except.ok (dictSet results "CLIP_Similarity" j))
    | .malformed m => (tr', Except.error (Err.jsonError m))
    | .absent => (tr', Except.ok (dictSet results "CLIP_Similarity" (Json.str "No results.")))

/-- `eval_three_in_one`: official 3-in-1 evaluator. -/
def eval_three_in_one (E : Env) (results : RMap) (tr : Trace) : Trace × Except Err RMap :=
  match runCmd E tr cmd_3in1 cwd_3in1 with
  | (tr', Except.error e) => (tr', Except.error e)
  | (tr', Except.ok _) =>
    match E.file path_3in1 with
    | .content j => (tr', Except.ok (dictSet results "3_in_1" j))
    | .malformed m => (tr', Except.error (Err.jsonError m))
    | .absent => (tr', Except.ok (dictSet results "3_in_1" (Json.str "No results.")))

/-! ### Environment-variable parsing (module level in the script) -/

/-- Python whitespace for `str.strip()`. -/
def isPySpace (c : Char) : Bool :=
  if c = ' ' ∨ c = '\t' ∨ c = '\n' ∨ c = '\x0d' ∨ c = '\x0b' ∨ c = '\x0c' then true else false

def dropLeadingSpaces : List Char → List Char
  | [] => []
  | c :: cs => if isPySpace c then dropLeadingSpaces cs else c :: cs

/-- Python `s.strip()`. -/
def pyStrip (s : String) : String :=
  String.mk ((dropLeadingSpaces (dropLeadingSpaces s.data).reverse).reverse)

/-- One step of Python `s.split(",")`. -/
def splitCommaAux : List Char → List Char → List String
  | [], acc => [String.mk acc.reverse]
  | c :: cs, acc =>
    if c = ',' then String.mk acc.reverse :: splitCommaAux cs [] else splitCommaAux cs (c :: acc)

/-- Python `s.split(",")` (note: `"".split(",") == [""]`). -/
def pySplitComma (s : String) : List String := splitCommaAux s.data []

def isDigitChar (c : Char) : Bool :=
  if 48 ≤ c.toNat ∧ c.toNat ≤ 57 then true else false

def parseDigitsAcc : List Char → Nat → Option Nat
  | [], acc => some acc
  | c :: cs, acc =>
    if isDigitChar c then parseDigitsAcc cs (acc * 10 + (c.toNat - 48)) else none

/-- Python `int(s)` on a decimal string: optional surrounding whitespace,
optional sign, one or more digits; `none` models the `ValueError` raised
otherwise. -/
def pyInt (s : String) : Option Int :=
  match (dropLeadingSpaces (dropLeadingSpaces s.data).reverse).reverse with
  | [] => none
  | '-' :: ds =>
    match ds with
    | [] => none
    | _ :: _ => (parseDigitsAcc ds 0).map (fun n => -(n : Int))
  | '+' :: ds =>
    match ds with
    | [] => none
    | _ :: _ => (parseDigitsAcc ds 0).map (fun n => (n : Int))
  | ds => (parseDigitsAcc ds 0).map (fun n => (n : Int))

/-- `GPT4V_CATEGORIES = os.getenv("GPT4V_CATEGORIES", "complex").split(",")`. -/
def GPT4V_CATEGORIES (E : Env) : List String :=
  pySplitComma ((E.getenv "GPT4V_CATEGORIES").getD "complex")

/-- `GPT4V_START = int(os.getenv("GPT4V_START", "0"))`; `none` models the
module-level `ValueError` on a malformed value. -/
def GPT4V_START (E : Env) : Option Int :=
  pyInt ((E.getenv "GPT4V_START").getD "0")

/-- `GPT4V_STEP = int(os.getenv("GPT4V_STEP", "1"))`. -/
def GPT4V_STEP (E : Env) : Option Int :=
  pyInt ((E.getenv "GPT4V_STEP").getD "1")

/-- `if os.getenv("OPENAI_API_KEY"):` — Python truthiness of an optional
string: present and non-empty. -/
def credentialPresent (E : Env) : Bool :=
  if (E.getenv "OPENAI_API_KEY").getD "" = "" then false else true

/-! ### The MLLM (GPT-4V) stage -/

def mllm_cwd : String := ROOT ++ "/MLLM_eval"

/-- The f-string
`f'python gpt4v_eval.py --category "{cat}" --start {GPT4V_START} --step {GPT4V_STEP}'`. -/
def mllm_cmd (start step : Int) (cat : String) : String :=
  "python gpt4v_eval.py --category \"" ++ cat ++ "\" --start " ++ toString start
    ++ " --step " ++ toString step

/-- The expected result path computed inside the per-category loop:
`out_name = f"gpt4v_result_{GPT4V_START}_{GPT4V_STEP}.json"` under
`EXAMPLES / "gpt4v"`.  The loop variable `cat` is in scope but does not
occur in the f-string. -/
def mllm_expected_path (start step : Int) (cat : String) : String :=
  EXAMPLES ++ "/gpt4v/gpt4v_result_" ++ toString start ++ "_" ++ toString step ++ ".json"

/-- The `for cat in GPT4V_CATEGORIES` loop of `eval_mllm_gpt4v`:
strip the category, skip it if empty, run the judge, then read the
expected result file into the per-category mapping.  Any exception
escapes the loop immediately. -/
def mllm_loop (E : Env) (start step : Int) :
    List String → RMap → Trace → Trace × Except Err RMap
  | [], scores, tr => (tr, Except.ok scores)
  | cat0 :: rest, scores, tr =>
    let cat := pyStrip cat0
    if cat = "" then mllm_loop E start step rest scores tr
    else
      match runCmd E tr (mllm_cmd start step cat) mllm_cwd with
      | (tr', Except.error e) => (tr', Except.error e)
      | (tr', Except.ok _) =>
        match E.file (mllm_expected_path start step cat) with
        | .content j => mllm_loop E start step rest (dictSet scores cat j) tr'
        | .malformed m => (tr', Except.error (Err.jsonError m))
        | .absent => mllm_loop E start step rest (dictSet scores cat (Json.str "No results.")) tr'

/-- `eval_mllm_gpt4v`: run the loop starting from an empty `mllm_scores`
dict, then store the nested mapping under `"MLLM_GPT4V"`.  The final store
only happens when no category raised. -/
def eval_mllm_gpt4v (E : Env) (start step : Int) (cats : List String)
    (results : RMap) (tr : Trace) : Trace × Except Err RMap :=
  match mllm_loop E start step cats [] tr with
  | (tr', Except.ok scores) => (tr', Except.ok (dictSet results "MLLM_GPT4V" (Json.obj scores)))
  | (tr', Except.error e) => (tr', Except.error e)

/-! ### The orchestrator (`main`) -/

/-- One `try: stage(results) except Exception: print(...)` block of `main`:
a failed stage leaves the results dict as the stage left it (the stage
functions never mutate it before raising), records nothing, and execution
continues. -/
def tryStage (stage : RMap → Trace → Trace × Except Err RMap)
    (r : RMap) (tr : Trace) : RMap × Trace :=
  match stage r tr with
  | (tr', Except.ok r') => (r', tr')
  | (tr', Except.error _) => (r, tr')

/-- The `if os.getenv("OPENAI_API_KEY"): try: ... except: results["MLLM_GPT4V"] = f"Failed: {e}"`
block of `main`. -/
def mllmStage (E : Env) (start step : Int) (cats : List String)
    (r : RMap) (tr : Trace) : RMap × Trace :=
  if credentialPresent E = true then
    match eval_mllm_gpt4v E start step cats r tr with
    | (tr', Except.ok r') => (r', tr')
    | (tr', Except.error e) =>
      (dictSet r "MLLM_GPT4V" (Json.str ("Failed: " ++ errMsg e)), tr')
  else (r, tr)

/-- Results dict and trace after the first `try` block of `main`. -/
def stage1 (E : Env) : RMap × Trace := tryStage (eval_vqa E) [] []

/-- … after the 2D-spatial block. -/
def stage2 (E : Env) : RMap × Trace := tryStage (eval_2d_spatial E) (stage1 E).1 (stage1 E).2

/-- … after the numeracy block. -/
def stage3 (E : Env) : RMap × Trace := tryStage (eval_numeracy E) (stage2 E).1 (stage2 E).2

/-- … after the 3D-spatial block. -/
def stage4 (E : Env) : RMap × Trace := tryStage (eval_3d_spatial E) (stage3 E).1 (stage3 E).2

/-- … after the CLIP block. -/
def stage5 (E : Env) : RMap × Trace := tryStage (eval_clip_similarity E) (stage4 E).1 (stage4 E).2

/-- … after the 3-in-1 block. -/
def stage6 (E : Env) : RMap × Trace := tryStage (eval_three_in_one E) (stage5 E).1 (stage5 E).2

/-- `main`, parameterised by the module-level configuration values
(`GPT4V_START`, `GPT4V_STEP`, `GPT4V_CATEGORIES`): the final results dict
(serialised to the summary file) and the full invocation trace. -/
def mainRun (E : Env) (start step : Int) (cats : List String) : RMap × Trace :=
  mllmStage E start step cats (stage6 E).1 (stage6 E).2

/-- The whole script: parse the module-level environment configuration
(`none` models the import-time `ValueError` of `int()`), then run `main`. -/
def program (E : Env) : Option (RMap × Trace) :=
  match GPT4V_START E, GPT4V_STEP E with
  | some a, some b => some (mainRun E a b (GPT4V_CATEGORIES E))
  | _, _ => none

/-- The fixed summary file path `ROOT / "final_eval_results.json"`. -/
def summary_path : String := ROOT ++ "/final_eval_results.json"

/-- The six metric invocations, in `main`'s order (these always run,
whatever the oracle answers). -/
def metricTrace : Trace :=
  [⟨cmd_vqa, cwd_vqa⟩, ⟨cmd_2d, cwd_2d⟩, ⟨cmd_num, cwd_num⟩,
   ⟨cmd_3d, cwd_3d⟩, ⟨cmd_clip, cwd_clip⟩, ⟨cmd_3in1, cwd_3in1⟩]

/-- The MLLM invocations produced by a list of categories when every
(non-empty, stripped) category's judge command succeeds. -/
def mllmTrace (start step : Int) : List String → Trace
  | [] => []
  | c :: cs =>
    if pyStrip c = "" then mllmTrace start step cs
    else ⟨mllm_cmd start step (pyStrip c), mllm_cwd⟩ :: mllmTrace start step cs

/-! ### JSON serialisation (`json.dump(results, f, indent=4)`) and parsing
(`json.load`)

`json.dump` is modelled character-for-character on the grammar the script
emits: `indent=4` pretty printing, `ensure_ascii=True` string escaping
(including surrogate pairs for astral code points), Python `repr` for
integers.  The parser models `json.load` on that grammar (it skips
whitespace freely between tokens, as the real decoder does). -/

/-- Decimal digits of a natural number, most significant first
(Python `repr` of a non-negative int). -/
def natToChars (n : Nat) : List Char :=
  if n < 10 then [Nat.digitChar n]
  else natToChars (n / 10) ++ [Nat.digitChar (n % 10)]
termination_by n
decreasing_by exact Nat.div_lt_self (by omega) (by omega)

/-- Python `repr` of an int. -/
def intChars (n : Int) : List Char :=
  if n < 0 then '-' :: natToChars n.natAbs else natToChars n.toNat

/-- Four lowercase hex digits of `n < 0x10000` (the `%04x` of `\uXXXX`). -/
def hex4 (n : Nat) : List Char :=
  [Nat.digitChar (n / 4096 % 16), Nat.digitChar (n / 256 % 16),
   Nat.digitChar (n / 16 % 16), Nat.digitChar (n % 16)]

/-- `ensure_ascii=True` escaping of one character: the two-character
escapes of the C0 controls with names, `\uXXXX` for other controls and all
non-ASCII characters, surrogate pairs above U+FFFF; printable ASCII is
emitted as itself. -/
def escapeChar (c : Char) : List Char :=
  if c = '"' then ['\\', '"']
  else if c = '\\' then ['\\', '\\']
  else if c = '\x08' then ['\\', 'b']
  else if c = '\x0c' then ['\\', 'f']
  else if c = '\n' then ['\\', 'n']
  else if c = '\x0d' then ['\\', 'r']
  else if c = '\t' then ['\\', 't']
  else if 0x20 ≤ c.toNat ∧ c.toNat ≤ 0x7e then [c]
  else if c.toNat < 0x10000 then '\\' :: 'u' :: hex4 c.toNat
  else
    '\\' :: 'u' :: hex4 (0xd800 + (c.toNat - 0x10000) / 0x400)
      ++ '\\' :: 'u' :: hex4 (0xdc00 + (c.toNat - 0x10000) % 0x400)

/-- Escape a whole string body. -/
def escChars : List Char → List Char
  | [] => []
  | c :: cs => escapeChar c ++ escChars cs

/-- `indent` padding: `n` spaces. -/
def pad (n : Nat) : List Char := List.replicate n ' '

/-- The characters `json.dump` writes for a Python float: `float.__repr__`
for finite values, and the (non-standard, emitted by default) literals
`NaN`, `Infinity`, `-Infinity`. -/
def floatChars : PyFloat → List Char
  | .nan => ['N', 'a', 'N']
  | .inf => ['I', 'n', 'f', 'i', 'n', 'i', 't', 'y']
  | .ninf => ['-', 'I', 'n', 'f', 'i', 'n', 'i', 't', 'y']
  | .finite r => r

mutual

/-- The text `json.dump(v, f, indent=4)` writes for a value at nesting
level `lvl` (level measured in spaces of indentation). -/
def render : Nat → Json → List Char
  | _, .null => ['n', 'u', 'l', 'l']
  | _, .bool true => ['t', 'r', 'u', 'e']
  | _, .bool false => ['f', 'a', 'l', 's', 'e']
  | _, .num n => intChars n
  | _, .fnum f => floatChars f
  | _, .str s => '"' :: (escChars s.data ++ ['"'])
  | _, .arr [] => ['[', ']']
  | lvl, .arr (x :: xs) =>
    '[' :: '\n' :: (pad (lvl + 4) ++ render (lvl + 4) x ++ renderArrRest (lvl + 4) xs
      ++ '\n' :: (pad lvl ++ [']']))
  | _, .obj [] => ['{', '}']
  | lvl, .obj (m :: ms) =>
    '{' :: '\n' :: (pad (lvl + 4) ++ renderMember (lvl + 4) m ++ renderObjRest (lvl + 4) ms
      ++ '\n' :: (pad lvl ++ ['}']))

/-- One `"key": value` object member. -/
def renderMember : Nat → String × Json → List Char
  | lvl, (k, v) => '"' :: (escChars k.data ++ '"' :: ':' :: ' ' :: render lvl v)

/-- The remaining array items, each preceded by `,\n` and indentation. -/
def renderArrRest : Nat → List Json → List Char
  | _, [] => []
  | lvl, x :: xs => ',' :: '\n' :: (pad lvl ++ render lvl x ++ renderArrRest lvl xs)

/-- The remaining object members, each preceded by `,\n` and indentation. -/
def renderObjRest : Nat → List (String × Json) → List Char
  | _, [] => []
  | lvl, m :: ms => ',' :: '\n' :: (pad lvl ++ renderMember lvl m ++ renderObjRest lvl ms)

end

/-- JSON insignificant whitespace. -/
def isWsChar (c : Char) : Bool :=
  if c = ' ' ∨ c = '\n' ∨ c = '\t' ∨ c = '\x0d' then true else false

/-- Skip insignificant whitespace. -/
def skipWs : List Char → List Char
  | [] => []
  | c :: cs => if isWsChar c then skipWs cs else c :: cs

def isHex (c : Char) : Bool :=
  if 48 ≤ c.toNat ∧ c.toNat ≤ 57 then true
  else if 97 ≤ c.toNat ∧ c.toNat ≤ 102 then true
  else if 65 ≤ c.toNat ∧ c.toNat ≤ 70 then true
  else false

def hexVal (c : Char) : Nat :=
  if 48 ≤ c.toNat ∧ c.toNat ≤ 57 then c.toNat - 48
  else if 97 ≤ c.toNat ∧ c.toNat ≤ 102 then c.toNat - 87
  else if 65 ≤ c.toNat ∧ c.toNat ≤ 70 then c.toNat - 55
  else 0

/-- The numeric value of a `\uXXXX` escape's four hex digits. -/
def hexVal4 (a b c d : Char) : Nat :=
  ((hexVal a * 16 + hexVal b) * 16 + hexVal c) * 16 + hexVal d

/-- Decode the four hex digits after `\u` — and, when they are a high
surrogate, the following `\uXXXX` low surrogate — into one code point and
the rest of the input.  An unpaired surrogate is rejected (the encoder
never emits one). -/
def decodeU (rest2 : List Char) : Option (Char × List Char) :=
  match rest2 with
  | a :: b :: c2 :: d :: rest3 =>
    if isHex a && isHex b && isHex c2 && isHex d then
      let n := hexVal4 a b c2 d
      if 0xd800 ≤ n ∧ n ≤ 0xdbff then
        match rest3 with
        | x :: y :: a2 :: b2 :: c3 :: d2 :: rest4 =>
          if x = '\\' ∧ y = 'u' ∧ (isHex a2 && isHex b2 && isHex c3 && isHex d2) = true then
            let m := hexVal4 a2 b2 c3 d2
            if 0xdc00 ≤ m ∧ m ≤ 0xdfff then
              some (Char.ofNat (0x10000 + (n - 0xd800) * 0x400 + (m - 0xdc00)), rest4)
            else none
          else none
        | _ => none
      else if 0xdc00 ≤ n ∧ n ≤ 0xdfff then none
      else some (Char.ofNat n, rest3)
    else none
  | _ => none

/-- Decode one backslash escape (the input starts after the backslash):
the named single-character escapes and `\uXXXX` via `decodeU`. -/
def decodeEsc : List Char → Option (Char × List Char)
  | [] => none
  | e :: rest2 =>
    if e = '"' then some ('"', rest2)
    else if e = '\\' then some ('\\', rest2)
    else if e = '/' then some ('/', rest2)
    else if e = 'b' then some ('\x08', rest2)
    else if e = 'f' then some ('\x0c', rest2)
    else if e = 'n' then some ('\n', rest2)
    else if e = 'r' then some ('\x0d', rest2)
    else if e = 't' then some ('\t', rest2)
    else if e = 'u' then decodeU rest2
    else none

/-- Parse a JSON string body after the opening quote, returning the
decoded characters and the rest of the input.  The fuel argument bounds
the number of decoded characters; callers pass more than the input
length. -/
def parseStringBody : Nat → List Char → Option (List Char × List Char)
  | 0, _ => none
  | _, [] => none
  | fuel + 1, c :: rest =>
    if c = '"' then some ([], rest)
    else if c = '\\' then
      match decodeEsc rest with
      | none => none
      | some (ch, rest2) => (parseStringBody fuel rest2).map (fun p => (ch :: p.1, p.2))
    else (parseStringBody fuel rest).map (fun p => (c :: p.1, p.2))

/-- Greedily take leading decimal digits. -/
def takeDigits : List Char → List Char × List Char
  | [] => ([], [])
  | c :: cs =>
    if isDigitChar c then
      let p := takeDigits cs
      (c :: p.1, p.2)
    else ([], c :: cs)

/-- Numeric value of a digit string, most significant first. -/
def digitsVal (ds : List Char) : Nat :=
  ds.foldl (fun a c => a * 10 + (c.toNat - 48)) 0

/-- Parse a non-empty run of digits as a natural number. -/
def parseNatNum (cs : List Char) : Option (Nat × List Char) :=
  match takeDigits cs with
  | ([], _) => none
  | (ds, rest) => some (digitsVal ds, rest)

/-- The fraction part `(\.\d+)?` of the JSON number grammar: the matched
characters and the remainder (empty match if no `.` followed by digits). -/
def parseFrac : List Char → List Char × List Char
  | [] => ([], [])
  | c :: rest =>
    if c = '.' then
      match takeDigits rest with
      | ([], _) => ([], c :: rest)
      | (ds, r) => ('.' :: ds, r)
    else ([], c :: rest)

/-- The exponent part `([eE][-+]?\d+)?` of the JSON number grammar. -/
def parseExp : List Char → List Char × List Char
  | [] => ([], [])
  | c :: rest =>
    if c = 'e' ∨ c = 'E' then
      match rest with
      | [] => ([], [c])
      | s :: rest2 =>
        if s = '+' ∨ s = '-' then
          match takeDigits rest2 with
          | ([], _) => ([], c :: rest)
          | (ds, r) => (c :: s :: ds, r)
        else
          match takeDigits rest with
          | ([], _) => ([], c :: rest)
          | (ds, r) => (c :: ds, r)
    else ([], c :: rest)

/-- The digits of a matched fraction part (drop the leading `.`). -/
def fracDigits : List Char → List Char
  | _ :: ds => ds
  | [] => []

/-- The signed integer value of a matched exponent part. -/
def expVal : List Char → Int
  | _ :: c :: ds =>
    if c = '+' then (digitsVal ds : Int)
    else if c = '-' then -(digitsVal ds : Int)
    else (digitsVal (c :: ds) : Int)
  | _ => 0

/-- The exact rational value of an unsigned float token, as a pair
`(mantissa, e)` denoting `mantissa * 10 ^ e`; `none` if the characters are
not a complete float token (no digits, no fraction and no exponent, or
trailing characters). -/
def pyFloatValCore (cs : List Char) : Option (Int × Int) :=
  match takeDigits cs with
  | ([], _) => none
  | (ip, cs2) =>
    match parseFrac cs2 with
    | (fp, cs3) =>
      match parseExp cs3 with
      | (ep, cs4) =>
        if (fp = [] ∧ ep = []) ∨ ¬ cs4 = [] then none
        else some ((digitsVal (ip ++ fracDigits fp) : Int),
                   expVal ep - (fracDigits fp).length)

/-- The exact rational value of a (possibly signed) finite-float token. -/
def pyFloatVal : List Char → Option (Int × Int)
  | [] => none
  | c :: rest =>
    if c = '-' then (pyFloatValCore rest).map (fun p => (-p.1, p.2))
    else pyFloatValCore (c :: rest)

/-- A well-formed finite-float representation: a complete float token (as
every `repr` of a finite Python float is). -/
def validFloatRepr (cs : List Char) : Bool := (pyFloatVal cs).isSome

/-- Characters that extend a number token past its integer digits. -/
def isNumCont (c : Char) : Bool :=
  isDigitChar c || decide (c = '.') || decide (c = 'e') || decide (c = 'E')

mutual

/-- Recursive-descent JSON value parser (`fuel` bounds the recursion
depth; the top-level wrapper supplies more fuel than any input can
need). -/
def parseValue : Nat → List Char → Option (Json × List Char)
  | 0, _ => none
  | fuel + 1, cs =>
    match skipWs cs with
    | [] => none
    | c :: rest =>
      if c = 'n' then
        match rest with
        | 'u' :: 'l' :: 'l' :: rest2 => some (.null, rest2)
        | _ => none
      else if c = 't' then
        match rest with
        | 'r' :: 'u' :: 'e' :: rest2 => some (.bool true, rest2)
        | _ => none
      else if c = 'f' then
        match rest with
        | 'a' :: 'l' :: 's' :: 'e' :: rest2 => some (.bool false, rest2)
        | _ => none
      else if c = 'N' then
        match rest with
        | 'a' :: 'N' :: rest2 => some (.fnum .nan, rest2)
        | _ => none
      else if c = 'I' then
        match rest with
        | 'n' :: 'f' :: 'i' :: 'n' :: 'i' :: 't' :: 'y' :: rest2 =>
          some (.fnum .inf, rest2)
        | _ => none
      else if c = '"' then
        (parseStringBody (rest.length + 1) rest).map (fun p => (.str (String.mk p.1), p.2))
      else if c = '[' then
        match skipWs rest with
        | [] => none
        | c2 :: rest2 =>
          if c2 = ']' then some (.arr [], rest2)
          else
            match parseValue fuel (c2 :: rest2) with
            | none => none
            | some (x, rest3) =>
              match parseArrRest fuel rest3 with
              | none => none
              | some (xs, rest4) => some (.arr (x :: xs), rest4)
      else if c = '{' then
        match skipWs rest with
        | [] => none
        | c2 :: rest2 =>
          if c2 = '}' then some (.obj [], rest2)
          else if c2 = '"' then
            match parseStringBody (rest2.length + 1) rest2 with
            | none => none
            | some (k, rest3) =>
              match skipWs rest3 with
              | ':' :: rest4 =>
                match parseValue fuel rest4 with
                | none => none
                | some (v, rest5) =>
                  match parseObjRest fuel rest5 with
                  | none => none
                  | some (ms, rest6) => some (.obj ((String.mk k, v) :: ms), rest6)
              | _ => none
          else none
      else if c = '-' then
        match takeDigits rest with
        | ([], _) =>
          match rest with
          | 'I' :: 'n' :: 'f' :: 'i' :: 'n' :: 'i' :: 't' :: 'y' :: rest2 =>
            some (.fnum .ninf, rest2)
          | _ => none
        | (ip, cs2) =>
          match parseFrac cs2 with
          | (fp, cs3) =>
            match parseExp cs3 with
            | (ep, cs4) =>
              if fp = [] ∧ ep = [] then some (.num (-(digitsVal ip : Int)), cs2)
              else some (.fnum (.finite ('-' :: (ip ++ fp ++ ep))), cs4)
      else
        match takeDigits (c :: rest) with
        | ([], _) => none
        | (ip, cs2) =>
          match parseFrac cs2 with
          | (fp, cs3) =>
            match parseExp cs3 with
            | (ep, cs4) =>
              if fp = [] ∧ ep = [] then some (.num ((digitsVal ip : Nat) : Int), cs2)
              else some (.fnum (.finite (ip ++ fp ++ ep)), cs4)

/-- After an array's first item: `, item`* then `]`. -/
def parseArrRest : Nat → List Char → Option (List Json × List Char)
  | 0, _ => none
  | fuel + 1, cs =>
    match skipWs cs with
    | [] => none
    | c :: rest =>
      if c = ']' then some ([], rest)
      else if c = ',' then
        match parseValue fuel rest with
        | none => none
        | some (x, rest2) =>
          match parseArrRest fuel rest2 with
          | none => none
          | some (xs, rest3) => some (x :: xs, rest3)
      else none

/-- After an object's first member: `, "key": value`* then `}`. -/
def parseObjRest : Nat → List Char → Option (List (String × Json) × List Char)
  | 0, _ => none
  | fuel + 1, cs =>
    match skipWs cs with
    | [] => none
    | c :: rest =>
      if c = '}' then some ([], rest)
      else if c = ',' then
        match skipWs rest with
        | [] => none
        | c2 :: rest2 =>
          if c2 = '"' then
            match parseStringBody (rest2.length + 1) rest2 with
            | none => none
            | some (k, rest3) =>
              match skipWs rest3 with
              | ':' :: rest4 =>
                match parseValue fuel rest4 with
                | none => none
                | some (v, rest5) =>
                  match parseObjRest fuel rest5 with
                  | none => none
                  | some (ms, rest6) => some ((String.mk k, v) :: ms, rest6)
              | _ => none
          else none
      else none

end

/-- `json.load` on the summary text: parse one value, then require only
whitespace up to end of input ("Extra data" otherwise). -/
def json_load (cs : List Char) : Option Json :=
  match parseValue (cs.length + 1) cs with
  | some (j, rest) => if skipWs rest = [] then some j else none
  | none => none

/-- The keys of an association list are pairwise distinct (as the keys of
every Python dict are). -/
def nodupKeys : List (String × Json) → Bool
  | [] => true
  | (k, _) :: ms => (dictGet ms k).isNone && nodupKeys ms

mutual

/-- A value is well-formed when it could have come out of `json.load` (or
is one of the orchestrator's own placeholder strings/dicts): every finite
float carries a complete token (true of every float `repr`), and every
object has duplicate-free keys (true of every Python dict). -/
def wfJson : Json → Bool
  | .fnum (.finite r) => validFloatRepr r
  | .arr xs => wfList xs
  | .obj ms => nodupKeys ms && wfObj ms
  | _ => true

def wfList : List Json → Bool
  | [] => true
  | x :: xs => wfJson x && wfList xs

def wfObj : List (String × Json) → Bool
  | [] => true
  | (_, v) :: ms => wfJson v && wfObj ms

end

mutual

/-- No `NaN` occurs anywhere in the value. -/
def noNaN : Json → Bool
  | .fnum .nan => false
  | .arr xs => noNaNList xs
  | .obj ms => noNaNObj ms
  | _ => true

def noNaNList : List Json → Bool
  | [] => true
  | x :: xs => noNaN x && noNaNList xs

def noNaNObj : List (String × Json) → Bool
  | [] => true
  | (_, v) :: ms => noNaN v && noNaNObj ms

end

/-- Exact equality of two rational values given as `m * 10 ^ e`. -/
def ratEqB : Int × Int → Int × Int → Bool
  | (m, e), (n, d) =>
    if d ≤ e then decide (m * 10 ^ (e - d).toNat = n)
    else decide (m = n * 10 ^ (d - e).toNat)

/-- The numeric value of a Python `bool`/`int`/finite `float` (Python
compares these across types by value: `True == 1`, `1 == 1.0`). -/
def pyNumVal : Json → Option (Int × Int)
  | .bool b => some (if b then 1 else 0, 0)
  | .num n => some (n, 0)
  | .fnum (.finite r) => pyFloatVal r
  | _ => none

mutual

/-- Python `==` between a freshly parsed value and another value (no
object-identity sharing, as when comparing `json.load`'s output with the
in-memory mapping): `None` only equals `None`, strings compare by value,
lists element-wise, dicts by key set and per-key values (insertion order
ignored), numbers and bools by exact numeric value across types, the
infinities equal themselves — and `NaN` equals nothing, itself included. -/
def pyEq : Json → Json → Bool
  | .null, .null => true
  | .str s, .str t => decide (s = t)
  | .arr xs, .arr ys => pyEqList xs ys
  | .obj ms, .obj ns => decide (ms.length = ns.length) && pyEqObjMem ms ns
  | .fnum .inf, .fnum .inf => true
  | .fnum .ninf, .fnum .ninf => true
  | a, b =>
    match pyNumVal a, pyNumVal b with
    | some v, some w => ratEqB v w
    | _, _ => false

def pyEqList : List Json → List Json → Bool
  | [], [] => true
  | x :: xs, y :: ys => pyEq x y && pyEqList xs ys
  | _, _ => false

/-- Every member of the first list has a Python-equal value under its key
in the second list. -/
def pyEqObjMem : List (String × Json) → List (String × Json) → Bool
  | [], _ => true
  | (k, v) :: ms, ns =>
    (match dictGet ns k with
     | some w => pyEq v w
     | none => false) && pyEqObjMem ms ns

end

mutual

/-- Fuel needed by `parseValue` on the rendering of a value. -/
def need : Json → Nat
  | .arr [] => 1
  | .arr (x :: xs) => 1 + max (need x) (needList xs)
  | .obj [] => 1
  | .obj (m :: ms) => 1 + max (need m.2) (needObj ms)
  | _ => 1

/-- Fuel needed by `parseArrRest` on remaining rendered items. -/
def needList : List Json → Nat
  | [] => 1
  | x :: xs => 1 + max (need x) (needList xs)

/-- Fuel needed by `parseObjRest` on remaining rendered members. -/
def needObj : List (String × Json) → Nat
  | [] => 1
  | m :: ms => 1 + max (need m.2) (needObj ms)

end

/-- The text `main` writes to the summary file:
`json.dump(results, f, indent=4)` of the final results dict. -/
def summary_text (E : Env) (start step : Int) (cats : List String) : List Char :=
  render 0 (Json.obj (mainRun E start step cats).1)

/-! ### Concrete oracles used to instantiate the theorems -/

/-- Every external command exits 1; no result files; the credential is
set, so the MLLM stage runs (and fails). -/
def envAllFail : Env :=
  { exit := fun _ _ => 1
    file := fun _ => FileObs.absent
    getenv := fun k => if k = "OPENAI_API_KEY" then some "sk-test" else none
    depth0 := { wrong := none, correct := none }
    depthEffect := id }

/-- Every external command exits 0, but no expected result file exists;
no environment variables are set. -/
def envAllOkAbsent : Env :=
  { exit := fun _ _ => 0
    file := fun _ => FileObs.absent
    getenv := fun _ => none
    depth0 := { wrong := none, correct := none }
    depthEffect := id }

/-- The scenario of the spec's MLLM test: categories `"color,shape"`,
start 5, step 2, credential present; every command succeeds and every
result file parses to the JSON number 1. -/
def envTwoCats : Env :=
  { exit := fun _ _ => 0
    file := fun _ => FileObs.content (Json.num 1)
    getenv := fun k =>
      if k = "GPT4V_CATEGORIES" then some "color,shape"
      else if k = "GPT4V_START" then some "5"
      else if k = "GPT4V_STEP" then some "2"
      else if k = "OPENAI_API_KEY" then some "sk-test"
      else none
    depth0 := { wrong := none, correct := none }
    depthEffect := id }

/-- Credential present; the judge invocation for `"shape"` (at start 0,
step 1) exits 1, every other command succeeds; result files all parse. -/
def envShapeFails : Env :=
  { exit := fun cmd _ => if cmd = mllm_cmd 0 1 "shape" then 1 else 0
    file := fun _ => FileObs.content (Json.num 1)
    getenv := fun k => if k = "OPENAI_API_KEY" then some "sk-test" else none
    depth0 := { wrong := none, correct := none }
    depthEffect := id }

/-- Every command exits 0 and every result file parses to the JSON value
`NaN` (which Python's `json.load` accepts and `json.dump` re-emits); no
environment variables are set, so the MLLM stage is skipped. -/
def envNaN : Env :=
  { exit := fun _ _ => 0
    file := fun _ => FileObs.content (Json.fnum PyFloat.nan)
    getenv := fun _ => none
    depth0 := { wrong := none, correct := none }
    depthEffect := id }

/-! ## Lemmas about the dict operations -/

theorem dictGet_dictSet_self (m : RMap) (k : String) (v : Json) :
    dictGet (dictSet m k v) k = some v := by
  induction m with
  | nil => simp [dictSet, dictGet]
  | cons p m ih =>
    by_cases h : p.1 = k <;> simp [dictSet, dictGet, h, ih]

theorem dictGet_dictSet_ne (m : RMap) (k k' : String) (v : Json) (h : k' ≠ k) :
    dictGet (dictSet m k' v) k = dictGet m k := by
  induction m with
  | nil => simp [dictSet, dictGet, h]
  | cons p m ih =>
    rcases p with ⟨pk, pv⟩
    by_cases hp : pk = k'
    · subst hp
      simp [dictSet, dictGet, h]
    · by_cases hk : pk = k
      · subst hk
        simp [dictSet, dictGet, hp, ih]
      · simp [dictSet, dictGet, hp, hk, ih]

/-! ## Lemmas about the process runner -/

theorem runCmd_ok (E : Env) (tr : Trace) (cmd cwd : String) (h : E.exit cmd cwd = 0) :
    runCmd E tr cmd cwd = (tr ++ [⟨cmd, cwd⟩], Except.ok ()) := by
  simp [runCmd, h]

theorem runCmd_fail (E : Env) (tr : Trace) (cmd cwd : String) (h : ¬ E.exit cmd cwd = 0) :
    runCmd E tr cmd cwd
      = (tr ++ [⟨cmd, cwd⟩], Except.error (Err.runtimeError ("Command failed: " ++ cmd))) := by
  simp [runCmd, h]

/-! ## Per-stage behaviour lemmas (trace, success shape, failure, absence) -/

theorem eval_vqa_trace (E : Env) (r : RMap) (tr : Trace) :
    (eval_vqa E r tr).1 = tr ++ [⟨cmd_vqa, cwd_vqa⟩] := by
  unfold eval_vqa
  by_cases h : E.exit cmd_vqa cwd_vqa = 0
  · rw [runCmd_ok E tr _ _ h]; cases E.file path_vqa <;> rfl
  · rw [runCmd_fail E tr _ _ h]

theorem eval_2d_trace (E : Env) (r : RMap) (tr : Trace) :
    (eval_2d_spatial E r tr).1 = tr ++ [⟨cmd_2d, cwd_2d⟩] := by
  unfold eval_2d_spatial
  by_cases h : E.exit cmd_2d cwd_2d = 0
  · rw [runCmd_ok E tr _ _ h]; cases E.file path_2d <;> rfl
  · rw [runCmd_fail E tr _ _ h]

theorem eval_num_trace (E : Env) (r : RMap) (tr : Trace) :
    (eval_numeracy E r tr).1 = tr ++ [⟨cmd_num, cwd_num⟩] := by
  unfold eval_numeracy
  by_cases h : E.exit cmd_num cwd_num = 0
  · rw [runCmd_ok E tr _ _ h]; cases E.file path_num <;> rfl
  · rw [runCmd_fail E tr _ _ h]

theorem eval_3d_trace (E : Env) (r : RMap) (tr : Trace) :
    (eval_3d_spatial E r tr).1 = tr ++ [⟨cmd_3d, cwd_3d⟩] := by
  unfold eval_3d_spatial
  by_cases h : E.exit cmd_3d cwd_3d = 0
  · rw [runCmd_ok E tr _ _ h]
    cases hfix : fix_depth_structure (E.depthEffect (ensure_dirs E.depth0)) with
    | error e => simp [hfix]
    | ok fs => simp [hfix]; cases E.file path_3d <;> rfl
  · rw [runCmd_fail E tr _ _ h]

theorem eval_clip_trace (E : Env) (r : RMap) (tr : Trace) :
    (eval_clip_similarity E r tr).1 = tr ++ [⟨cmd_clip, cwd_clip⟩] := by
  unfold eval_clip_similarity
  by_cases h : E.exit cmd_clip cwd_clip = 0
  · rw [runCmd_ok E tr _ _ h]; cases E.file path_clip <;> rfl
  · rw [runCmd_fail E tr _ _ h]

theorem eval_3in1_trace (E : Env) (r : RMap) (tr : Trace) :
    (eval_three_in_one E r tr).1 = tr ++ [⟨cmd_3in1, cwd_3in1⟩] := by
  unfold eval_three_in_one
  by_cases h : E.exit cmd_3in1 cwd_3in1 = 0
  · rw [runCmd_ok E tr _ _ h]; cases E.file path_3in1 <;> rfl
  · rw [runCmd_fail E tr _ _ h]

theorem eval_vqa_ok_shape (E : Env) (r : RMap) (tr : Trace) (r' : RMap)
    (h : (eval_vqa E r tr).2 = Except.ok r') : ∃ v, r' = dictSet r "VQA" v := by
  unfold eval_vqa at h
  by_cases hx : E.exit cmd_vqa cwd_vqa = 0
  · rw [runCmd_ok E tr _ _ hx] at h
    cases hf : E.file path_vqa <;> rw [hf] at h <;> simp_all
    · exact ⟨_, h.symm⟩
    · exact ⟨_, h.symm⟩
  · rw [runCmd_fail E tr _ _ hx] at h; simp_all

theorem eval_2d_ok_shape (E : Env) (r : RMap) (tr : Trace) (r' : RMap)
    (h : (eval_2d_spatial E r tr).2 = Except.ok r') : ∃ v, r' = dictSet r "2D_Spatial" v := by
  unfold eval_2d_spatial at h
  by_cases hx : E.exit cmd_2d cwd_2d = 0
  · rw [runCmd_ok E tr _ _ hx] at h
    cases hf : E.file path_2d <;> rw [hf] at h <;> simp_all
    · exact ⟨_, h.symm⟩
    · exact ⟨_, h.symm⟩
  · rw [runCmd_fail E tr _ _ hx] at h; simp_all

theorem eval_num_ok_shape (E : Env) (r : RMap) (tr : Trace) (r' : RMap)
    (h : (eval_numeracy E r tr).2 = Except.ok r') : ∃ v, r' = dictSet r "Numeracy" v := by
  unfold eval_numeracy at h
  by_cases hx : E.exit cmd_num cwd_num = 0
  · rw [runCmd_ok E tr _ _ hx] at h
    cases hf : E.file path_num <;> rw [hf] at h <;> simp_all
    · exact ⟨_, h.symm⟩
    · exact ⟨_, h.symm⟩
  · rw [runCmd_fail E tr _ _ hx] at h; simp_all

theorem eval_3d_ok_shape (E : Env) (r : RMap) (tr : Trace) (r' : RMap)
    (h : (eval_3d_spatial E r tr).2 = Except.ok r') : ∃ v, r' = dictSet r "3D_Spatial" v := by
  unfold eval_3d_spatial at h
  by_cases hx : E.exit cmd_3d cwd_3d = 0
  · rw [runCmd_ok E tr _ _ hx] at h
    cases hfix : fix_depth_structure (E.depthEffect (ensure_dirs E.depth0)) with
    | error e => rw [hfix] at h; simp_all
    | ok fs =>
      rw [hfix] at h
      cases hf : E.file path_3d <;> rw [hf] at h <;> simp_all
      · exact ⟨_, h.symm⟩
      · exact ⟨_, h.symm⟩
  · rw [runCmd_fail E tr _ _ hx] at h; simp_all

theorem eval_clip_ok_shape (E : Env) (r : RMap) (tr : Trace) (r' : RMap)
    (h : (eval_clip_similarity E r tr).2 = Except.ok r') :
    ∃ v, r' = dictSet r "CLIP_Similarity" v := by
  unfold eval_clip_similarity at h
  by_cases hx : E.exit cmd_clip cwd_clip = 0
  · rw [runCmd_ok E tr _ _ hx] at h
    cases hf : E.file path_clip <;> rw [hf] at h <;> simp_all
    · exact ⟨_, h.symm⟩
    · exact ⟨_, h.symm⟩
  · rw [runCmd_fail E tr _ _ hx] at h; simp_all

theorem eval_3in1_ok_shape (E : Env) (r : RMap) (tr : Trace) (r' : RMap)
    (h : (eval_three_in_one E r tr).2 = Except.ok r') : ∃ v, r' = dictSet r "3_in_1" v := by
  unfold eval_three_in_one at h
  by_cases hx : E.exit cmd_3in1 cwd_3in1 = 0
  · rw [runCmd_ok E tr _ _ hx] at h
    cases hf : E.file path_3in1 <;> rw [hf] at h <;> simp_all
    · exact ⟨_, h.symm⟩
    · exact ⟨_, h.symm⟩
  · rw [runCmd_fail E tr _ _ hx] at h; simp_all

theorem eval_vqa_fail (E : Env) (r : RMap) (tr : Trace) (h : ¬ E.exit cmd_vqa cwd_vqa = 0) :
    eval_vqa E r tr
      = (tr ++ [⟨cmd_vqa, cwd_vqa⟩],
         Except.error (Err.runtimeError ("Command failed: " ++ cmd_vqa))) := by
  unfold eval_vqa
  rw [runCmd_fail E tr _ _ h]

theorem eval_2d_fail (E : Env) (r : RMap) (tr : Trace) (h : ¬ E.exit cmd_2d cwd_2d = 0) :
    eval_2d_spatial E r tr
      = (tr ++ [⟨cmd_2d, cwd_2d⟩],
         Except.error (Err.runtimeError ("Command failed: " ++ cmd_2d))) := by
  unfold eval_2d_spatial
  rw [runCmd_fail E tr _ _ h]

theorem eval_num_fail (E : Env) (r : RMap) (tr : Trace) (h : ¬ E.exit cmd_num cwd_num = 0) :
    eval_numeracy E r tr
      = (tr ++ [⟨cmd_num, cwd_num⟩],
         Except.error (Err.runtimeError ("Command failed: " ++ cmd_num))) := by
  unfold eval_numeracy
  rw [runCmd_fail E tr _ _ h]

theorem eval_3d_fail (E : Env) (r : RMap) (tr : Trace) (h : ¬ E.exit cmd_3d cwd_3d = 0) :
    eval_3d_spatial E r tr
      = (tr ++ [⟨cmd_3d, cwd_3d⟩],
         Except.error (Err.runtimeError ("Command failed: " ++ cmd_3d))) := by
  unfold eval_3d_spatial
  rw [runCmd_fail E tr _ _ h]

theorem eval_clip_fail (E : Env) (r : RMap) (tr : Trace) (h : ¬ E.exit cmd_clip cwd_clip = 0) :
    eval_clip_similarity E r tr
      = (tr ++ [⟨cmd_clip, cwd_clip⟩],
         Except.error (Err.runtimeError ("Command failed: " ++ cmd_clip))) := by
  unfold eval_clip_similarity
  rw [runCmd_fail E tr _ _ h]

theorem eval_3in1_fail (E : Env) (r : RMap) (tr : Trace) (h : ¬ E.exit cmd_3in1 cwd_3in1 = 0) :
    eval_three_in_one E r tr
      = (tr ++ [⟨cmd_3in1, cwd_3in1⟩],
         Except.error (Err.runtimeError ("Command failed: " ++ cmd_3in1))) := by
  unfold eval_three_in_one
  rw [runCmd_fail E tr _ _ h]

theorem eval_vqa_absent (E : Env) (r : RMap) (tr : Trace)
    (h : E.exit cmd_vqa cwd_vqa = 0) (hf : E.file path_vqa = FileObs.absent) :
    eval_vqa E r tr
      = (tr ++ [⟨cmd_vqa, cwd_vqa⟩],
         Except.ok (dictSet r "VQA" (Json.str "No result produced."))) := by
  unfold eval_vqa
  rw [runCmd_ok E tr _ _ h, hf]

theorem eval_2d_absent (E : Env) (r : RMap) (tr : Trace)
    (h : E.exit cmd_2d cwd_2d = 0) (hf : E.file path_2d = FileObs.absent) :
    eval_2d_spatial E r tr
      = (tr ++ [⟨cmd_2d, cwd_2d⟩],
         Except.ok (dictSet r "2D_Spatial" (Json.str "No results."))) := by
  unfold eval_2d_spatial
  rw [runCmd_ok E tr _ _ h, hf]

theorem eval_num_absent (E : Env) (r : RMap) (tr : Trace)
    (h : E.exit cmd_num cwd_num = 0) (hf : E.file path_num = FileObs.absent) :
    eval_numeracy E r tr
      = (tr ++ [⟨cmd_num, cwd_num⟩],
         Except.ok (dictSet r "Numeracy" (Json.str "No results."))) := by
  unfold eval_numeracy
  rw [runCmd_ok E tr _ _ h, hf]

theorem eval_3d_absent (E : Env) (r : RMap) (tr : Trace) (fs' : DepthFS)
    (h : E.exit cmd_3d cwd_3d = 0)
    (hfix : fix_depth_structure (E.depthEffect (ensure_dirs E.depth0)) = Except.ok fs')
    (hf : E.file path_3d = FileObs.absent) :
    eval_3d_spatial E r tr
      = (tr ++ [⟨cmd_3d, cwd_3d⟩],
         Except.ok (dictSet r "3D_Spatial" (Json.str "No results."))) := by
  unfold eval_3d_spatial
  rw [runCmd_ok E tr _ _ h, hfix, hf]

theorem eval_clip_absent (E : Env) (r : RMap) (tr : Trace)
    (h : E.exit cmd_clip cwd_clip = 0) (hf : E.file path_clip = FileObs.absent) :
    eval_clip_similarity E r tr
      = (tr ++ [⟨cmd_clip, cwd_clip⟩],
         Except.ok (dictSet r "CLIP_Similarity" (Json.str "No results."))) := by
  unfold eval_clip_similarity
  rw [runCmd_ok E tr _ _ h, hf]

theorem eval_3in1_absent (E : Env) (r : RMap) (tr : Trace)
    (h : E.exit cmd_3in1 cwd_3in1 = 0) (hf : E.file path_3in1 = FileObs.absent) :
    eval_three_in_one E r tr
      = (tr ++ [⟨cmd_3in1, cwd_3in1⟩],
         Except.ok (dictSet r "3_in_1" (Json.str "No results."))) := by
  unfold eval_three_in_one
  rw [runCmd_ok E tr _ _ h, hf]

/-! ## Lemmas about the orchestrator's isolation blocks -/

theorem tryStage_of_error (stage : RMap → Trace → Trace × Except Err RMap)
    (r : RMap) (tr : Trace) (e : Err) (h : (stage r tr).2 = Except.error e) :
    tryStage stage r tr = (r, (stage r tr).1) := by
  unfold tryStage
  rcases hs : stage r tr with ⟨tr', res⟩
  rw [hs] at h
  cases res with
  | ok r' => simp at h
  | error e' => rfl

theorem tryStage_of_ok (stage : RMap → Trace → Trace × Except Err RMap)
    (r : RMap) (tr : Trace) (r' : RMap) (h : (stage r tr).2 = Except.ok r') :
    tryStage stage r tr = (r', (stage r tr).1) := by
  unfold tryStage
  rcases hs : stage r tr with ⟨tr', res⟩
  rw [hs] at h
  cases res with
  | ok r'' => simp at h; rw [h]
  | error e' => simp at h

theorem tryStage_trace (stage : RMap → Trace → Trace × Except Err RMap)
    (r : RMap) (tr : Trace) : (tryStage stage r tr).2 = (stage r tr).1 := by
  unfold tryStage
  rcases hs : stage r tr with ⟨tr', res⟩
  cases res <;> rfl

/-- A stage whose successful result only `dictSet`s a key other than `k`
leaves `dictGet · k` unchanged through its `try` block. -/
theorem tryStage_frame (stage : RMap → Trace → Trace × Except Err RMap)
    (r : RMap) (tr : Trace) (k : String)
    (h : ∀ r', (stage r tr).2 = Except.ok r' → dictGet r' k = dictGet r k) :
    dictGet (tryStage stage r tr).1 k = dictGet r k := by
  unfold tryStage
  rcases hs : stage r tr with ⟨tr', res⟩
  cases res with
  | ok r' =>
    have := h r' (by rw [hs])
    simpa using this
  | error e => rfl

/-! ## The metric pipeline: traces and key frames -/

theorem stage1_trace (E : Env) : (stage1 E).2 = [⟨cmd_vqa, cwd_vqa⟩] := by
  unfold stage1
  rw [tryStage_trace, eval_vqa_trace]
  rfl

theorem stage2_trace (E : Env) :
    (stage2 E).2 = [⟨cmd_vqa, cwd_vqa⟩, ⟨cmd_2d, cwd_2d⟩] := by
  unfold stage2
  rw [tryStage_trace, eval_2d_trace, stage1_trace]
  rfl

theorem stage3_trace (E : Env) :
    (stage3 E).2 = [⟨cmd_vqa, cwd_vqa⟩, ⟨cmd_2d, cwd_2d⟩, ⟨cmd_num, cwd_num⟩] := by
  unfold stage3
  rw [tryStage_trace, eval_num_trace, stage2_trace]
  rfl

theorem stage4_trace (E : Env) :
    (stage4 E).2
      = [⟨cmd_vqa, cwd_vqa⟩, ⟨cmd_2d, cwd_2d⟩, ⟨cmd_num, cwd_num⟩, ⟨cmd_3d, cwd_3d⟩] := by
  unfold stage4
  rw [tryStage_trace, eval_3d_trace, stage3_trace]
  rfl

theorem stage5_trace (E : Env) :
    (stage5 E).2
      = [⟨cmd_vqa, cwd_vqa⟩, ⟨cmd_2d, cwd_2d⟩, ⟨cmd_num, cwd_num⟩, ⟨cmd_3d, cwd_3d⟩,
         ⟨cmd_clip, cwd_clip⟩] := by
  unfold stage5
  rw [tryStage_trace, eval_clip_trace, stage4_trace]
  rfl

theorem stage6_trace (E : Env) : (stage6 E).2 = metricTrace := by
  unfold stage6
  rw [tryStage_trace, eval_3in1_trace, stage5_trace]
  rfl

theorem stage1_frame (E : Env) (k : String) (hk : ¬ k = "VQA") :
    dictGet (stage1 E).1 k = none := by
  unfold stage1
  have h : dictGet (tryStage (eval_vqa E) [] []).1 k = dictGet [] k := by
    apply tryStage_frame
    intro r' h
    obtain ⟨v, hv⟩ := eval_vqa_ok_shape E [] [] r' h
    subst hv
    exact dictGet_dictSet_ne [] k "VQA" v (fun hh => hk hh.symm)
  simpa [dictGet] using h

theorem stage2_frame (E : Env) (k : String) (hk : ¬ k = "2D_Spatial") :
    dictGet (stage2 E).1 k = dictGet (stage1 E).1 k := by
  unfold stage2
  apply tryStage_frame
  intro r' h
  obtain ⟨v, hv⟩ := eval_2d_ok_shape E _ _ r' h
  subst hv
  exact dictGet_dictSet_ne _ k "2D_Spatial" v (fun hh => hk hh.symm)

theorem stage3_frame (E : Env) (k : String) (hk : ¬ k = "Numeracy") :
    dictGet (stage3 E).1 k = dictGet (stage2 E).1 k := by
  unfold stage3
  apply tryStage_frame
  intro r' h
  obtain ⟨v, hv⟩ := eval_num_ok_shape E _ _ r' h
  subst hv
  exact dictGet_dictSet_ne _ k "Numeracy" v (fun hh => hk hh.symm)

theorem stage4_frame (E : Env) (k : String) (hk : ¬ k = "3D_Spatial") :
    dictGet (stage4 E).1 k = dictGet (stage3 E).1 k := by
  unfold stage4
  apply tryStage_frame
  intro r' h
  obtain ⟨v, hv⟩ := eval_3d_ok_shape E _ _ r' h
  subst hv
  exact dictGet_dictSet_ne _ k "3D_Spatial" v (fun hh => hk hh.symm)

theorem stage5_frame (E : Env) (k : String) (hk : ¬ k = "CLIP_Similarity") :
    dictGet (stage5 E).1 k = dictGet (stage4 E).1 k := by
  unfold stage5
  apply tryStage_frame
  intro r' h
  obtain ⟨v, hv⟩ := eval_clip_ok_shape E _ _ r' h
  subst hv
  exact dictGet_dictSet_ne _ k "CLIP_Similarity" v (fun hh => hk hh.symm)

theorem stage6_frame (E : Env) (k : String) (hk : ¬ k = "3_in_1") :
    dictGet (stage6 E).1 k = dictGet (stage5 E).1 k := by
  unfold stage6
  apply tryStage_frame
  intro r' h
  obtain ⟨v, hv⟩ := eval_3in1_ok_shape E _ _ r' h
  subst hv
  exact dictGet_dictSet_ne _ k "3_in_1" v (fun hh => hk hh.symm)

/-! ## MLLM stage lemmas -/

theorem eval_mllm_ok_shape (E : Env) (start step : Int) (cats : List String)
    (results : RMap) (tr : Trace) (r' : RMap)
    (h : (eval_mllm_gpt4v E start step cats results tr).2 = Except.ok r') :
    ∃ scores, r' = dictSet results "MLLM_GPT4V" (Json.obj scores) := by
  unfold eval_mllm_gpt4v at h
  rcases hl : mllm_loop E start step cats [] tr with ⟨tr2, res⟩
  rw [hl] at h
  cases res with
  | ok scores =>
    simp at h
    exact ⟨scores, h.symm⟩
  | error e => simp at h

theorem mllmStage_frame (E : Env) (start step : Int) (cats : List String)
    (r : RMap) (tr : Trace) (k : String) (hk : ¬ k = "MLLM_GPT4V") :
    dictGet (mllmStage E start step cats r tr).1 k = dictGet r k := by
  unfold mllmStage
  by_cases hc : credentialPresent E = true
  · rw [if_pos hc]
    rcases hm : eval_mllm_gpt4v E start step cats r tr with ⟨tr2, res⟩
    cases res with
    | ok r' =>
      obtain ⟨scores, hs⟩ := eval_mllm_ok_shape E start step cats r tr r' (by rw [hm])
      subst hs
      simp [dictGet_dictSet_ne r k "MLLM_GPT4V" (Json.obj scores) (fun hh => hk hh.symm)]
    | error e =>
      simp [dictGet_dictSet_ne r k "MLLM_GPT4V" _ (fun hh => hk hh.symm)]
  · rw [if_neg hc]

theorem mllmStage_of_error (E : Env) (start step : Int) (cats : List String)
    (r : RMap) (tr : Trace) (e : Err) (hc : credentialPresent E = true)
    (h : (eval_mllm_gpt4v E start step cats r tr).2 = Except.error e) :
    mllmStage E start step cats r tr
      = (dictSet r "MLLM_GPT4V" (Json.str ("Failed: " ++ errMsg e)),
         (eval_mllm_gpt4v E start step cats r tr).1) := by
  unfold mllmStage
  rw [if_pos hc]
  rcases hm : eval_mllm_gpt4v E start step cats r tr with ⟨tr2, res⟩
  rw [hm] at h
  cases res with
  | ok r' => simp at h
  | error e' =>
    simp at h
    subst h
    rfl

theorem stage1_of_error (E : Env) (e : Err)
    (h : (eval_vqa E [] []).2 = Except.error e) : (stage1 E).1 = [] := by
  unfold stage1
  rw [tryStage_of_error _ _ _ e h]

theorem stage2_of_error (E : Env) (e : Err)
    (h : (eval_2d_spatial E (stage1 E).1 (stage1 E).2).2 = Except.error e) :
    (stage2 E).1 = (stage1 E).1 := by
  unfold stage2
  rw [tryStage_of_error _ _ _ e h]

theorem stage3_of_error (E : Env) (e : Err)
    (h : (eval_numeracy E (stage2 E).1 (stage2 E).2).2 = Except.error e) :
    (stage3 E).1 = (stage2 E).1 := by
  unfold stage3
  rw [tryStage_of_error _ _ _ e h]

theorem stage4_of_error (E : Env) (e : Err)
    (h : (eval_3d_spatial E (stage3 E).1 (stage3 E).2).2 = Except.error e) :
    (stage4 E).1 = (stage3 E).1 := by
  unfold stage4
  rw [tryStage_of_error _ _ _ e h]

theorem stage5_of_error (E : Env) (e : Err)
    (h : (eval_clip_similarity E (stage4 E).1 (stage4 E).2).2 = Except.error e) :
    (stage5 E).1 = (stage4 E).1 := by
  unfold stage5
  rw [tryStage_of_error _ _ _ e h]

theorem stage6_of_error (E : Env) (e : Err)
    (h : (eval_three_in_one E (stage5 E).1 (stage5 E).2).2 = Except.error e) :
    (stage6 E).1 = (stage5 E).1 := by
  unfold stage6
  rw [tryStage_of_error _ _ _ e h]

/-- When every earlier category's judge command succeeds (and no result
file is malformed) but `cat`'s command fails, the per-category loop stops
at `cat` with the `RuntimeError`, having invoked exactly the earlier
categories and `cat` — the categories after `cat` are never invoked and
the collected scores are discarded. -/
theorem mllm_loop_fail (E : Env) (start step : Int) (cs1 : List String) (cat : String)
    (cs2 : List String) (scores : RMap) (tr : Trace)
    (h1 : ∀ c ∈ cs1, ¬ pyStrip c = "" → E.exit (mllm_cmd start step (pyStrip c)) mllm_cwd = 0)
    (hm : ∀ c m, ¬ E.file (mllm_expected_path start step c) = FileObs.malformed m)
    (h2 : ¬ pyStrip cat = "")
    (h3 : ¬ E.exit (mllm_cmd start step (pyStrip cat)) mllm_cwd = 0) :
    mllm_loop E start step (cs1 ++ cat :: cs2) scores tr
      = (tr ++ mllmTrace start step cs1 ++ [⟨mllm_cmd start step (pyStrip cat), mllm_cwd⟩],
         Except.error (Err.runtimeError ("Command failed: " ++ mllm_cmd start step (pyStrip cat)))) := by
  induction cs1 generalizing scores tr with
  | nil =>
    simp only [List.nil_append]
    unfold mllm_loop
    rw [if_neg h2, runCmd_fail E tr _ _ h3]
    simp [mllmTrace]
  | cons c cs1 ih =>
    simp only [List.cons_append]
    unfold mllm_loop
    by_cases hskip : pyStrip c = ""
    · rw [if_pos hskip]
      rw [ih _ _ (fun x hx hne => h1 x (List.mem_cons_of_mem c hx) hne)]
      simp [mllmTrace, hskip]
    · rw [if_neg hskip,
          runCmd_ok E tr _ _ (h1 c (List.mem_cons_self c cs1) hskip)]
      cases hf : E.file (mllm_expected_path start step (pyStrip c)) with
      | content j =>
        simp only [ih _ _ (fun x hx hne => h1 x (List.mem_cons_of_mem c hx) hne)]
        simp [mllmTrace, hskip, List.append_assoc]
      | malformed m => exact absurd hf (hm _ m)
      | absent =>
        simp only [ih _ _ (fun x hx hne => h1 x (List.mem_cons_of_mem c hx) hne)]
        simp [mllmTrace, hskip, List.append_assoc]

theorem mllm_loop_trace_mono (E : Env) (start step : Int) (cats : List String)
    (scores : RMap) (tr : Trace) :
    ∃ m, (mllm_loop E start step cats scores tr).1 = tr ++ m := by
  induction cats generalizing scores tr with
  | nil => exact ⟨[], by simp [mllm_loop]⟩
  | cons c cs ih =>
    unfold mllm_loop
    by_cases hskip : pyStrip c = ""
    · rw [if_pos hskip]
      exact ih scores tr
    · rw [if_neg hskip]
      by_cases hx : E.exit (mllm_cmd start step (pyStrip c)) mllm_cwd = 0
      · rw [runCmd_ok E tr _ _ hx]
        cases hf : E.file (mllm_expected_path start step (pyStrip c)) with
        | content j =>
          obtain ⟨m, hm2⟩ := ih (dictSet scores (pyStrip c) j)
            (tr ++ [⟨mllm_cmd start step (pyStrip c), mllm_cwd⟩])
          exact ⟨_ , by simp only []; rw [hm2, List.append_assoc]⟩
        | malformed m => exact ⟨[⟨mllm_cmd start step (pyStrip c), mllm_cwd⟩], rfl⟩
        | absent =>
          obtain ⟨m, hm2⟩ := ih (dictSet scores (pyStrip c) (Json.str "No results."))
            (tr ++ [⟨mllm_cmd start step (pyStrip c), mllm_cwd⟩])
          exact ⟨_ , by simp only []; rw [hm2, List.append_assoc]⟩
      · rw [runCmd_fail E tr _ _ hx]
        exact ⟨[⟨mllm_cmd start step (pyStrip c), mllm_cwd⟩], rfl⟩

theorem mllmStage_trace_mono (E : Env) (start step : Int) (cats : List String)
    (r : RMap) (tr : Trace) :
    ∃ m, (mllmStage E start step cats r tr).2 = tr ++ m := by
  unfold mllmStage
  by_cases hc : credentialPresent E = true
  · rw [if_pos hc]
    unfold eval_mllm_gpt4v
    obtain ⟨m, hm2⟩ := mllm_loop_trace_mono E start step cats [] tr
    rcases hl : mllm_loop E start step cats [] tr with ⟨tr2, res⟩
    rw [hl] at hm2
    cases res with
    | ok s => exact ⟨m, by simpa using hm2⟩
    | error e => exact ⟨m, by simpa using hm2⟩
  · rw [if_neg hc]
    exact ⟨[], by simp⟩

theorem mllmStage_skip (E : Env) (start step : Int) (cats : List String)
    (r : RMap) (tr : Trace) (h : credentialPresent E = false) :
    mllmStage E start step cats r tr = (r, tr) := by
  unfold mllmStage
  rw [if_neg (by simp [h])]

/-! ## Claim C1 -/

/-- C1 counterexample: with every command failing (and the credential
set), the VQA command exits non-zero, yet the final Results Mapping has no
entry at all under `"VQA"` — in particular no `"Failed: <message>"`
placeholder is recorded for that stage, contrary to the claim. -/
theorem c1_counterexample :
    ¬ envAllFail.exit cmd_vqa cwd_vqa = 0
  ∧ dictGet (mainRun envAllFail 0 1 ["complex"]).1 "VQA" = none :=
  ⟨by decide, rfl⟩

/-- C1 (amended): for every metric stage whose external command exits
non-zero, the Orchestrator catches the failure but records no entry under
that stage's key (the `"Failed: <message>"` placeholder is recorded only
for the MLLM stage); all six metric stages are still invoked, in order, at
the start of the trace, and the summary is written from the final mapping
whatever happens. -/
theorem c1_metric_failure_unrecorded (E : Env) (s t : Int) (cats : List String) :
    (¬ E.exit cmd_vqa cwd_vqa = 0 → dictGet (mainRun E s t cats).1 "VQA" = none)
  ∧ (¬ E.exit cmd_2d cwd_2d = 0 → dictGet (mainRun E s t cats).1 "2D_Spatial" = none)
  ∧ (¬ E.exit cmd_num cwd_num = 0 → dictGet (mainRun E s t cats).1 "Numeracy" = none)
  ∧ (¬ E.exit cmd_3d cwd_3d = 0 → dictGet (mainRun E s t cats).1 "3D_Spatial" = none)
  ∧ (¬ E.exit cmd_clip cwd_clip = 0 → dictGet (mainRun E s t cats).1 "CLIP_Similarity" = none)
  ∧ (¬ E.exit cmd_3in1 cwd_3in1 = 0 → dictGet (mainRun E s t cats).1 "3_in_1" = none)
  ∧ (∃ mtr, (mainRun E s t cats).2 = metricTrace ++ mtr) := by
  refine ⟨?_, ?_, ?_, ?_, ?_, ?_, ?_⟩
  · intro h
    have h1 : (stage1 E).1 = [] :=
      stage1_of_error E _ (by rw [eval_vqa_fail E [] [] h])
    have hc : dictGet (mainRun E s t cats).1 "VQA" = dictGet (stage1 E).1 "VQA" := by
      unfold mainRun
      rw [mllmStage_frame E s t cats _ _ _ (by decide), stage6_frame E _ (by decide),
          stage5_frame E _ (by decide), stage4_frame E _ (by decide),
          stage3_frame E _ (by decide), stage2_frame E _ (by decide)]
    rw [hc, h1]
    rfl
  · intro h
    have h1 : (stage2 E).1 = (stage1 E).1 :=
      stage2_of_error E _ (by rw [eval_2d_fail E _ _ h])
    have hc : dictGet (mainRun E s t cats).1 "2D_Spatial"
        = dictGet (stage2 E).1 "2D_Spatial" := by
      unfold mainRun
      rw [mllmStage_frame E s t cats _ _ _ (by decide), stage6_frame E _ (by decide),
          stage5_frame E _ (by decide), stage4_frame E _ (by decide),
          stage3_frame E _ (by decide)]
    rw [hc, h1, stage1_frame E _ (by decide)]
  · intro h
    have h1 : (stage3 E).1 = (stage2 E).1 :=
      stage3_of_error E _ (by rw [eval_num_fail E _ _ h])
    have hc : dictGet (mainRun E s t cats).1 "Numeracy"
        = dictGet (stage3 E).1 "Numeracy" := by
      unfold mainRun
      rw [mllmStage_frame E s t cats _ _ _ (by decide), stage6_frame E _ (by decide),
          stage5_frame E _ (by decide), stage4_frame E _ (by decide)]
    rw [hc, h1, stage2_frame E _ (by decide), stage1_frame E _ (by decide)]
  · intro h
    have h1 : (stage4 E).1 = (stage3 E).1 :=
      stage4_of_error E _ (by rw [eval_3d_fail E _ _ h])
    have hc : dictGet (mainRun E s t cats).1 "3D_Spatial"
        = dictGet (stage4 E).1 "3D_Spatial" := by
      unfold mainRun
      rw [mllmStage_frame E s t cats _ _ _ (by decide), stage6_frame E _ (by decide),
          stage5_frame E _ (by decide)]
    rw [hc, h1, stage3_frame E _ (by decide), stage2_frame E _ (by decide),
        stage1_frame E _ (by decide)]
  · intro h
    have h1 : (stage5 E).1 = (stage4 E).1 :=
      stage5_of_error E _ (by rw [eval_clip_fail E _ _ h])
    have hc : dictGet (mainRun E s t cats).1 "CLIP_Similarity"
        = dictGet (stage5 E).1 "CLIP_Similarity" := by
      unfold mainRun
      rw [mllmStage_frame E s t cats _ _ _ (by decide), stage6_frame E _ (by decide)]
    rw [hc, h1, stage4_frame E _ (by decide), stage3_frame E _ (by decide),
        stage2_frame E _ (by decide), stage1_frame E _ (by decide)]
  · intro h
    have h1 : (stage6 E).1 = (stage5 E).1 :=
      stage6_of_error E _ (by rw [eval_3in1_fail E _ _ h])
    have hc : dictGet (mainRun E s t cats).1 "3_in_1"
        = dictGet (stage6 E).1 "3_in_1" := by
      unfold mainRun
      rw [mllmStage_frame E s t cats _ _ _ (by decide)]
    rw [hc, h1, stage5_frame E _ (by decide), stage4_frame E _ (by decide),
        stage3_frame E _ (by decide), stage2_frame E _ (by decide),
        stage1_frame E _ (by decide)]
  · obtain ⟨m, hm2⟩ := mllmStage_trace_mono E s t cats (stage6 E).1 (stage6 E).2
    refine ⟨m, ?_⟩
    unfold mainRun
    rw [hm2, stage6_trace]

/-- C1 witness: the amended theorem instantiated at the all-failing
oracle. -/
theorem c1_witness :
    dictGet (mainRun envAllFail 0 1 ["complex"]).1 "2D_Spatial" = none
  ∧ dictGet (mainRun envAllFail 0 1 ["complex"]).1 "3_in_1" = none
  ∧ ∃ mtr, (mainRun envAllFail 0 1 ["complex"]).2 = metricTrace ++ mtr := by
  have h := c1_metric_failure_unrecorded envAllFail 0 1 ["complex"]
  exact ⟨h.2.1 (by decide), h.2.2.2.2.2.1 (by decide), h.2.2.2.2.2.2⟩

/-! ## Claim C2 -/

/-- C2: when one of the six metric stages raises (its command exits
non-zero, or its result file is malformed, or — for the 3D stage — the
repair step raises), the final Results Mapping has no entry at all under
that stage's key: no failure placeholder is recorded for metric stages.
Only the MLLM stage's key can hold a `"Failed: <message>"` value, recorded
when the MLLM stage raises with the credential present. -/
theorem c2_metric_stage_exception_no_entry (E : Env) (s t : Int) (cats : List String) :
    ((∃ e, (eval_vqa E [] []).2 = Except.error e) →
       dictGet (mainRun E s t cats).1 "VQA" = none)
  ∧ ((∃ e, (eval_2d_spatial E (stage1 E).1 (stage1 E).2).2 = Except.error e) →
       dictGet (mainRun E s t cats).1 "2D_Spatial" = none)
  ∧ ((∃ e, (eval_numeracy E (stage2 E).1 (stage2 E).2).2 = Except.error e) →
       dictGet (mainRun E s t cats).1 "Numeracy" = none)
  ∧ ((∃ e, (eval_3d_spatial E (stage3 E).1 (stage3 E).2).2 = Except.error e) →
       dictGet (mainRun E s t cats).1 "3D_Spatial" = none)
  ∧ ((∃ e, (eval_clip_similarity E (stage4 E).1 (stage4 E).2).2 = Except.error e) →
       dictGet (mainRun E s t cats).1 "CLIP_Similarity" = none)
  ∧ ((∃ e, (eval_three_in_one E (stage5 E).1 (stage5 E).2).2 = Except.error e) →
       dictGet (mainRun E s t cats).1 "3_in_1" = none)
  ∧ (credentialPresent E = true →
       ∀ e, (eval_mllm_gpt4v E s t cats (stage6 E).1 (stage6 E).2).2 = Except.error e →
         dictGet (mainRun E s t cats).1 "MLLM_GPT4V"
           = some (Json.str ("Failed: " ++ errMsg e))) := by
  refine ⟨?_, ?_, ?_, ?_, ?_, ?_, ?_⟩
  · rintro ⟨e, he⟩
    have h1 : (stage1 E).1 = [] := stage1_of_error E e he
    have hc : dictGet (mainRun E s t cats).1 "VQA" = dictGet (stage1 E).1 "VQA" := by
      unfold mainRun
      rw [mllmStage_frame E s t cats _ _ _ (by decide), stage6_frame E _ (by decide),
          stage5_frame E _ (by decide), stage4_frame E _ (by decide),
          stage3_frame E _ (by decide), stage2_frame E _ (by decide)]
    rw [hc, h1]
    rfl
  · rintro ⟨e, he⟩
    have h1 : (stage2 E).1 = (stage1 E).1 := stage2_of_error E e he
    have hc : dictGet (mainRun E s t cats).1 "2D_Spatial"
        = dictGet (stage2 E).1 "2D_Spatial" := by
      unfold mainRun
      rw [mllmStage_frame E s t cats _ _ _ (by decide), stage6_frame E _ (by decide),
          stage5_frame E _ (by decide), stage4_frame E _ (by decide),
          stage3_frame E _ (by decide)]
    rw [hc, h1, stage1_frame E _ (by decide)]
  · rintro ⟨e, he⟩
    have h1 : (stage3 E).1 = (stage2 E).1 := stage3_of_error E e he
    have hc : dictGet (mainRun E s t cats).1 "Numeracy"
        = dictGet (stage3 E).1 "Numeracy" := by
      unfold mainRun
      rw [mllmStage_frame E s t cats _ _ _ (by decide), stage6_frame E _ (by decide),
          stage5_frame E _ (by decide), stage4_frame E _ (by decide)]
    rw [hc, h1, stage2_frame E _ (by decide), stage1_frame E _ (by decide)]
  · rintro ⟨e, he⟩
    have h1 : (stage4 E).1 = (stage3 E).1 := stage4_of_error E e he
    have hc : dictGet (mainRun E s t cats).1 "3D_Spatial"
        = dictGet (stage4 E).1 "3D_Spatial" := by
      unfold mainRun
      rw [mllmStage_frame E s t cats _ _ _ (by decide), stage6_frame E _ (by decide),
          stage5_frame E _ (by decide)]
    rw [hc, h1, stage3_frame E _ (by decide), stage2_frame E _ (by decide),
        stage1_frame E _ (by decide)]
  · rintro ⟨e, he⟩
    have h1 : (stage5 E).1 = (stage4 E).1 := stage5_of_error E e he
    have hc : dictGet (mainRun E s t cats).1 "CLIP_Similarity"
        = dictGet (stage5 E).1 "CLIP_Similarity" := by
      unfold mainRun
      rw [mllmStage_frame E s t cats _ _ _ (by decide), stage6_frame E _ (by decide)]
    rw [hc, h1, stage4_frame E _ (by decide), stage3_frame E _ (by decide),
        stage2_frame E _ (by decide), stage1_frame E _ (by decide)]
  · rintro ⟨e, he⟩
    have h1 : (stage6 E).1 = (stage5 E).1 := stage6_of_error E e he
    have hc : dictGet (mainRun E s t cats).1 "3_in_1"
        = dictGet (stage6 E).1 "3_in_1" := by
      unfold mainRun
      rw [mllmStage_frame E s t cats _ _ _ (by decide)]
    rw [hc, h1, stage5_frame E _ (by decide), stage4_frame E _ (by decide),
        stage3_frame E _ (by decide), stage2_frame E _ (by decide),
        stage1_frame E _ (by decide)]
  · intro hcred e he
    have hs := mllmStage_of_error E s t cats (stage6 E).1 (stage6 E).2 e hcred he
    unfold mainRun
    rw [hs]
    exact dictGet_dictSet_self _ _ _

/-- C2 witness: the all-failing oracle raises in every stage; no metric
key is present and the MLLM key holds the failure placeholder. -/
theorem c2_witness :
    dictGet (mainRun envAllFail 0 1 ["complex"]).1 "VQA" = none
  ∧ dictGet (mainRun envAllFail 0 1 ["complex"]).1 "2D_Spatial" = none
  ∧ dictGet (mainRun envAllFail 0 1 ["complex"]).1 "Numeracy" = none
  ∧ dictGet (mainRun envAllFail 0 1 ["complex"]).1 "3D_Spatial" = none
  ∧ dictGet (mainRun envAllFail 0 1 ["complex"]).1 "CLIP_Similarity" = none
  ∧ dictGet (mainRun envAllFail 0 1 ["complex"]).1 "3_in_1" = none
  ∧ dictGet (mainRun envAllFail 0 1 ["complex"]).1 "MLLM_GPT4V"
      = some (Json.str ("Failed: "
          ++ errMsg (Err.runtimeError ("Command failed: " ++ mllm_cmd 0 1 "complex")))) := by
  have h := c2_metric_stage_exception_no_entry envAllFail 0 1 ["complex"]
  exact ⟨h.1 ⟨_, rfl⟩, h.2.1 ⟨_, rfl⟩, h.2.2.1 ⟨_, rfl⟩, h.2.2.2.1 ⟨_, rfl⟩,
         h.2.2.2.2.1 ⟨_, rfl⟩, h.2.2.2.2.2.1 ⟨_, rfl⟩,
         h.2.2.2.2.2.2 rfl _ rfl⟩

/-! ## Claim C3 -/

/-- C3 counterexample: with every command succeeding and every result file
absent, the VQA entry is `"No result produced."` while the 2D-spatial
entry is `"No results."` — the "no results" placeholder is not the same
literal for all stages. -/
theorem c3_counterexample :
    dictGet (mainRun envAllOkAbsent 0 1 ["complex"]).1 "VQA"
      = some (Json.str "No result produced.")
  ∧ dictGet (mainRun envAllOkAbsent 0 1 ["complex"]).1 "2D_Spatial"
      = some (Json.str "No results.")
  ∧ ¬ ("No result produced." : String) = "No results." :=
  ⟨rfl, rfl, by decide⟩

/-- C3 (amended): when a stage's command exits zero and its expected
result file is absent, the stage stores that stage's own "no results"
placeholder — `"No result produced."` for VQA and `"No results."` for the
other five stages (for the 3D stage, provided the repair step returned
normally); both literals are distinct from every failure placeholder
`"Failed: <message>"`. -/
theorem c3_no_results_placeholders (E : Env) (r : RMap) (tr : Trace) :
    (E.exit cmd_vqa cwd_vqa = 0 → E.file path_vqa = FileObs.absent →
       eval_vqa E r tr = (tr ++ [⟨cmd_vqa, cwd_vqa⟩],
         Except.ok (dictSet r "VQA" (Json.str "No result produced."))))
  ∧ (E.exit cmd_2d cwd_2d = 0 → E.file path_2d = FileObs.absent →
       eval_2d_spatial E r tr = (tr ++ [⟨cmd_2d, cwd_2d⟩],
         Except.ok (dictSet r "2D_Spatial" (Json.str "No results."))))
  ∧ (E.exit cmd_num cwd_num = 0 → E.file path_num = FileObs.absent →
       eval_numeracy E r tr = (tr ++ [⟨cmd_num, cwd_num⟩],
         Except.ok (dictSet r "Numeracy" (Json.str "No results."))))
  ∧ (E.exit cmd_3d cwd_3d = 0 →
       (∃ fs', fix_depth_structure (E.depthEffect (ensure_dirs E.depth0)) = Except.ok fs') →
       E.file path_3d = FileObs.absent →
       eval_3d_spatial E r tr = (tr ++ [⟨cmd_3d, cwd_3d⟩],
         Except.ok (dictSet r "3D_Spatial" (Json.str "No results."))))
  ∧ (E.exit cmd_clip cwd_clip = 0 → E.file path_clip = FileObs.absent →
       eval_clip_similarity E r tr = (tr ++ [⟨cmd_clip, cwd_clip⟩],
         Except.ok (dictSet r "CLIP_Similarity" (Json.str "No results."))))
  ∧ (E.exit cmd_3in1 cwd_3in1 = 0 → E.file path_3in1 = FileObs.absent →
       eval_three_in_one E r tr = (tr ++ [⟨cmd_3in1, cwd_3in1⟩],
         Except.ok (dictSet r "3_in_1" (Json.str "No results."))))
  ∧ (∀ msg : String, ¬ ("No result produced." : String) = "Failed: " ++ msg)
  ∧ (∀ msg : String, ¬ ("No results." : String) = "Failed: " ++ msg) := by
  refine ⟨?_, ?_, ?_, ?_, ?_, ?_, ?_, ?_⟩
  · intro h hf
    exact eval_vqa_absent E r tr h hf
  · intro h hf
    exact eval_2d_absent E r tr h hf
  · intro h hf
    exact eval_num_absent E r tr h hf
  · rintro h ⟨fs', hfix⟩ hf
    exact eval_3d_absent E r tr fs' h hfix hf
  · intro h hf
    exact eval_clip_absent E r tr h hf
  · intro h hf
    exact eval_3in1_absent E r tr h hf
  · intro msg h
    have hd := congrArg String.data h
    rw [show ("Failed: " ++ msg).data
          = 'F' :: 'a' :: 'i' :: 'l' :: 'e' :: 'd' :: ':' :: ' ' :: msg.data from rfl] at hd
    simp at hd
  · intro msg h
    have hd := congrArg String.data h
    rw [show ("Failed: " ++ msg).data
          = 'F' :: 'a' :: 'i' :: 'l' :: 'e' :: 'd' :: ':' :: ' ' :: msg.data from rfl] at hd
    simp at hd

/-- C3 witness: the amended statement instantiated at the
all-succeed/no-file oracle, starting from the empty dict. -/
theorem c3_witness :
    eval_vqa envAllOkAbsent [] [] = ([⟨cmd_vqa, cwd_vqa⟩],
      Except.ok [("VQA", Json.str "No result produced.")])
  ∧ eval_2d_spatial envAllOkAbsent [] [] = ([⟨cmd_2d, cwd_2d⟩],
      Except.ok [("2D_Spatial", Json.str "No results.")])
  ∧ eval_3d_spatial envAllOkAbsent [] [] = ([⟨cmd_3d, cwd_3d⟩],
      Except.ok [("3D_Spatial", Json.str "No results.")])
  ∧ ¬ ("No results." : String) = "Failed: " ++ "boom" := by
  have h := c3_no_results_placeholders envAllOkAbsent [] []
  exact ⟨h.1 rfl rfl, h.2.1 rfl rfl, h.2.2.2.1 rfl ⟨_, rfl⟩ rfl, h.2.2.2.2.2.2.2 "boom"⟩

/-! ## Claim C6 -/

/-- C6: if the gating credential `OPENAI_API_KEY` is absent or empty, the
MLLM stage performs zero judge invocations (the trace is exactly the six
metric invocations, none of which runs in the judge's working directory)
and no `"MLLM_GPT4V"` key is added to the Results Mapping. -/
theorem c6_no_credential_skips_mllm (E : Env) (s t : Int) (cats : List String)
    (h : credentialPresent E = false) :
    dictGet (mainRun E s t cats).1 "MLLM_GPT4V" = none
  ∧ (mainRun E s t cats).2 = metricTrace
  ∧ ∀ i ∈ (mainRun E s t cats).2, ¬ i.cwd = mllm_cwd := by
  have hskip := mllmStage_skip E s t cats (stage6 E).1 (stage6 E).2 h
  have htr : (mainRun E s t cats).2 = metricTrace := by
    unfold mainRun
    rw [hskip]
    exact stage6_trace E
  refine ⟨?_, htr, ?_⟩
  · unfold mainRun
    rw [hskip]
    rw [show ((stage6 E).1, (stage6 E).2).1 = (stage6 E).1 from rfl,
        stage6_frame E _ (by decide), stage5_frame E _ (by decide),
        stage4_frame E _ (by decide), stage3_frame E _ (by decide),
        stage2_frame E _ (by decide), stage1_frame E _ (by decide)]
  · rw [htr]
    decide

/-- C6 witness: instantiated at the oracle with an empty environment. -/
theorem c6_witness :
    dictGet (mainRun envAllOkAbsent 0 1 ["complex"]).1 "MLLM_GPT4V" = none
  ∧ (mainRun envAllOkAbsent 0 1 ["complex"]).2 = metricTrace :=
  ⟨(c6_no_credential_skips_mllm envAllOkAbsent 0 1 ["complex"] rfl).1,
   (c6_no_credential_skips_mllm envAllOkAbsent 0 1 ["complex"] rfl).2.1⟩

/-! ## Claim C9 -/

/-- C9: for every metric stage, when the process runner signals a command
failure the stage returns that `RuntimeError` unchanged, having written
nothing: through the orchestrator's `try` block the results dict is
exactly the dict from before the stage ran. -/
theorem c9_runner_failure_propagates (E : Env) (r : RMap) (tr : Trace) :
    (¬ E.exit cmd_vqa cwd_vqa = 0 →
       eval_vqa E r tr = (tr ++ [⟨cmd_vqa, cwd_vqa⟩],
         Except.error (Err.runtimeError ("Command failed: " ++ cmd_vqa)))
       ∧ tryStage (eval_vqa E) r tr = (r, tr ++ [⟨cmd_vqa, cwd_vqa⟩]))
  ∧ (¬ E.exit cmd_2d cwd_2d = 0 →
       eval_2d_spatial E r tr = (tr ++ [⟨cmd_2d, cwd_2d⟩],
         Except.error (Err.runtimeError ("Command failed: " ++ cmd_2d)))
       ∧ tryStage (eval_2d_spatial E) r tr = (r, tr ++ [⟨cmd_2d, cwd_2d⟩]))
  ∧ (¬ E.exit cmd_num cwd_num = 0 →
       eval_numeracy E r tr = (tr ++ [⟨cmd_num, cwd_num⟩],
         Except.error (Err.runtimeError ("Command failed: " ++ cmd_num)))
       ∧ tryStage (eval_numeracy E) r tr = (r, tr ++ [⟨cmd_num, cwd_num⟩]))
  ∧ (¬ E.exit cmd_3d cwd_3d = 0 →
       eval_3d_spatial E r tr = (tr ++ [⟨cmd_3d, cwd_3d⟩],
         Except.error (Err.runtimeError ("Command failed: " ++ cmd_3d)))
       ∧ tryStage (eval_3d_spatial E) r tr = (r, tr ++ [⟨cmd_3d, cwd_3d⟩]))
  ∧ (¬ E.exit cmd_clip cwd_clip = 0 →
       eval_clip_similarity E r tr = (tr ++ [⟨cmd_clip, cwd_clip⟩],
         Except.error (Err.runtimeError ("Command failed: " ++ cmd_clip)))
       ∧ tryStage (eval_clip_similarity E) r tr = (r, tr ++ [⟨cmd_clip, cwd_clip⟩]))
  ∧ (¬ E.exit cmd_3in1 cwd_3in1 = 0 →
       eval_three_in_one E r tr = (tr ++ [⟨cmd_3in1, cwd_3in1⟩],
         Except.error (Err.runtimeError ("Command failed: " ++ cmd_3in1)))
       ∧ tryStage (eval_three_in_one E) r tr = (r, tr ++ [⟨cmd_3in1, cwd_3in1⟩])) := by
  refine ⟨?_, ?_, ?_, ?_, ?_, ?_⟩
  · intro h
    have hf := eval_vqa_fail E r tr h
    refine ⟨hf, ?_⟩
    rw [tryStage_of_error (eval_vqa E) r tr _ (by rw [hf]), eval_vqa_trace]
  · intro h
    have hf := eval_2d_fail E r tr h
    refine ⟨hf, ?_⟩
    rw [tryStage_of_error (eval_2d_spatial E) r tr _ (by rw [hf]), eval_2d_trace]
  · intro h
    have hf := eval_num_fail E r tr h
    refine ⟨hf, ?_⟩
    rw [tryStage_of_error (eval_numeracy E) r tr _ (by rw [hf]), eval_num_trace]
  · intro h
    have hf := eval_3d_fail E r tr h
    refine ⟨hf, ?_⟩
    rw [tryStage_of_error (eval_3d_spatial E) r tr _ (by rw [hf]), eval_3d_trace]
  · intro h
    have hf := eval_clip_fail E r tr h
    refine ⟨hf, ?_⟩
    rw [tryStage_of_error (eval_clip_similarity E) r tr _ (by rw [hf]), eval_clip_trace]
  · intro h
    have hf := eval_3in1_fail E r tr h
    refine ⟨hf, ?_⟩
    rw [tryStage_of_error (eval_three_in_one E) r tr _ (by rw [hf]), eval_3in1_trace]

/-- C9 witness: instantiated at the all-failing oracle on a non-trivial
dict, showing the dict passes through unchanged. -/
theorem c9_witness :
    eval_vqa envAllFail [("k", Json.num 7)] []
      = ([⟨cmd_vqa, cwd_vqa⟩],
         Except.error (Err.runtimeError ("Command failed: " ++ cmd_vqa)))
  ∧ tryStage (eval_vqa envAllFail) [("k", Json.num 7)] []
      = ([("k", Json.num 7)], [⟨cmd_vqa, cwd_vqa⟩])
  ∧ tryStage (eval_three_in_one envAllFail) [("k", Json.num 7)] []
      = ([("k", Json.num 7)], [⟨cmd_3in1, cwd_3in1⟩]) := by
  have h := c9_runner_failure_propagates envAllFail [("k", Json.num 7)] []
  refine ⟨?_, ?_, ?_⟩
  · have := (h.1 (by decide)).1
    simpa using this
  · have := (h.1 (by decide)).2
    simpa using this
  · have := (h.2.2.2.2.2 (by decide)).2
    simpa using this

/-! ## Claim C4 -/

/-- C4 counterexample: the expected result paths computed in the loop
iterations for the distinct categories `"color"` and `"shape"` (same start
5, step 2) are the same path — the naming scheme does not include the
category, so distinct categories do not get distinct paths. -/
theorem c4_counterexample :
    mllm_expected_path 5 2 "color" = mllm_expected_path 5 2 "shape"
  ∧ ¬ ("color" : String) = "shape" :=
  ⟨rfl, by decide⟩

/-- C4 (amended): the expected result path is computed by a deterministic
naming scheme combining only the start and step values — the category does
not occur in it, so all categories of one run share one expected path. -/
theorem c4_expected_path_ignores_category (start step : Int) (c1 c2 : String) :
    mllm_expected_path start step c1 = mllm_expected_path start step c2 := rfl

/-! ## Claim C5 -/

/-- C5: with `GPT4V_CATEGORIES="color,shape"`, `GPT4V_START="5"`,
`GPT4V_STEP="2"` and the credential present (and every command
succeeding), the program invokes the judge exactly twice — the trace is
the six metric invocations followed by exactly one judge invocation per
category, each passing `--start 5 --step 2` — and the nested mapping under
`"MLLM_GPT4V"` has exactly the two entries `"color"` and `"shape"`. -/
theorem c5_two_categories_two_invocations :
    program envTwoCats = some
      ([("VQA", Json.num 1), ("2D_Spatial", Json.num 1), ("Numeracy", Json.num 1),
        ("3D_Spatial", Json.num 1), ("CLIP_Similarity", Json.num 1), ("3_in_1", Json.num 1),
        ("MLLM_GPT4V", Json.obj [("color", Json.num 1), ("shape", Json.num 1)])],
       metricTrace ++ [⟨mllm_cmd 5 2 "color", mllm_cwd⟩, ⟨mllm_cmd 5 2 "shape", mllm_cwd⟩])
  ∧ mllm_cmd 5 2 "color" = "python gpt4v_eval.py --category \"color\" --start 5 --step 2"
  ∧ mllm_cmd 5 2 "shape" = "python gpt4v_eval.py --category \"shape\" --start 5 --step 2" :=
  ⟨rfl, rfl, rfl⟩

/-! ## Claim C7 -/

/-- C7: with the credential present, when the judge invocation for some
category fails (every earlier category's invocation having succeeded, and
no result file being malformed), the MLLM stage aborts at that category:
the trace shows no invocation for any later category, the per-category
results collected so far are discarded, and the top-level `"MLLM_GPT4V"`
key holds only the failure placeholder string. -/
theorem c7_mllm_category_failure_aborts (E : Env) (s t : Int)
    (cs1 : List String) (cat : String) (cs2 : List String)
    (hcred : credentialPresent E = true)
    (h1 : ∀ c ∈ cs1, ¬ pyStrip c = "" → E.exit (mllm_cmd s t (pyStrip c)) mllm_cwd = 0)
    (hm : ∀ c m, ¬ E.file (mllm_expected_path s t c) = FileObs.malformed m)
    (h2 : ¬ pyStrip cat = "")
    (h3 : ¬ E.exit (mllm_cmd s t (pyStrip cat)) mllm_cwd = 0) :
    dictGet (mainRun E s t (cs1 ++ cat :: cs2)).1 "MLLM_GPT4V"
      = some (Json.str ("Failed: Command failed: " ++ mllm_cmd s t (pyStrip cat)))
  ∧ (mainRun E s t (cs1 ++ cat :: cs2)).2
      = metricTrace ++ mllmTrace s t cs1 ++ [⟨mllm_cmd s t (pyStrip cat), mllm_cwd⟩] := by
  have hloop := mllm_loop_fail E s t cs1 cat cs2 [] (stage6 E).2 h1 hm h2 h3
  have he : (eval_mllm_gpt4v E s t (cs1 ++ cat :: cs2) (stage6 E).1 (stage6 E).2).2
      = Except.error
          (Err.runtimeError ("Command failed: " ++ mllm_cmd s t (pyStrip cat))) := by
    unfold eval_mllm_gpt4v
    rw [hloop]
  have htr : (eval_mllm_gpt4v E s t (cs1 ++ cat :: cs2) (stage6 E).1 (stage6 E).2).1
      = (stage6 E).2 ++ mllmTrace s t cs1 ++ [⟨mllm_cmd s t (pyStrip cat), mllm_cwd⟩] := by
    unfold eval_mllm_gpt4v
    rw [hloop]
  have hs := mllmStage_of_error E s t (cs1 ++ cat :: cs2) (stage6 E).1 (stage6 E).2 _ hcred he
  constructor
  · unfold mainRun
    rw [hs]
    exact dictGet_dictSet_self _ _ _
  · unfold mainRun
    rw [hs]
    rw [show (dictSet (stage6 E).1 "MLLM_GPT4V"
          (Json.str ("Failed: "
            ++ errMsg (Err.runtimeError ("Command failed: " ++ mllm_cmd s t (pyStrip cat))))),
          (eval_mllm_gpt4v E s t (cs1 ++ cat :: cs2) (stage6 E).1 (stage6 E).2).1).2
        = (eval_mllm_gpt4v E s t (cs1 ++ cat :: cs2) (stage6 E).1 (stage6 E).2).1 from rfl]
    rw [htr, stage6_trace]

/-- C7 witness: with three categories `["color", "shape", "texture"]` and
the `"shape"` invocation failing, the run invokes `"color"` then
`"shape"` and never `"texture"`, and the MLLM key holds only the failure
placeholder (the `"color"` result is discarded). -/
theorem c7_witness :
    dictGet (mainRun envShapeFails 0 1 ["color", "shape", "texture"]).1 "MLLM_GPT4V"
      = some (Json.str ("Failed: Command failed: " ++ mllm_cmd 0 1 "shape"))
  ∧ (mainRun envShapeFails 0 1 ["color", "shape", "texture"]).2
      = metricTrace ++ [⟨mllm_cmd 0 1 "color", mllm_cwd⟩, ⟨mllm_cmd 0 1 "shape", mllm_cwd⟩] := by
  have h := c7_mllm_category_failure_aborts envShapeFails 0 1 ["color"] "shape" ["texture"]
    rfl (by decide) (fun c m hh => by simp [envShapeFails] at hh) (by decide) (by decide)
  refine ⟨h.1, ?_⟩
  have h2 : (mainRun envShapeFails 0 1 ["color", "shape", "texture"]).2
      = metricTrace ++ mllmTrace 0 1 ["color"]
        ++ [⟨mllm_cmd 0 1 (pyStrip "shape"), mllm_cwd⟩] := h.2
  rw [h2]
  rfl

/-! ## Claim C8 -/

theorem mem_moveOne_of_mem (cs : List String) (g f : String) (h : f ∈ cs) :
    f ∈ moveOne cs g := by
  unfold moveOne
  split
  · exact h
  · simp [h]

theorem self_mem_moveOne (cs : List String) (f : String) : f ∈ moveOne cs f := by
  unfold moveOne
  split
  · assumption
  · simp

theorem mem_foldl_moveOne_init (files : List String) (cs : List String) (f : String)
    (h : f ∈ cs) : f ∈ files.foldl moveOne cs := by
  induction files generalizing cs with
  | nil => exact h
  | cons g gs ih => exact ih (moveOne cs g) (mem_moveOne_of_mem cs g f h)

theorem mem_foldl_moveOne (files : List String) (cs : List String) (f : String)
    (h : f ∈ files) : f ∈ files.foldl moveOne cs := by
  induction files generalizing cs with
  | nil => simp at h
  | cons g gs ih =>
    rcases List.mem_cons.mp h with hf | hmem
    · subst hf
      exact mem_foldl_moveOne_init gs (moveOne cs f) f (self_mem_moveOne cs f)
    · exact ih (moveOne cs g) hmem

/-- C8 counterexample: from the filesystem state where the misplaced
directory exists with one file but the correct sibling directory does not
exist, the Output Repair Step raises (`Path.rename` to a target whose
parent does not exist) — it is not total on every filesystem state. -/
theorem c8_counterexample :
    fix_depth_structure { wrong := some ["depth1.png"], correct := none }
      = Except.error (Err.osError "FileNotFoundError") := rfl

/-- C8 (amended): provided the correct sibling directory exists (which
`ensure_dirs` establishes before the step is reached), the Output Repair
Step returns normally, is idempotent (its result state has no misplaced
directory, so a second run is the identity on it and running twice equals
running once), is a no-op when the misplaced directory is absent, and
loses no file: every file of the misplaced directory is in the correct
directory afterwards. -/
theorem c8_repair_idempotent_total (fs : DepthFS) (cs : List String)
    (h : fs.correct = some cs) :
    ∃ fs', fix_depth_structure fs = Except.ok fs'
      ∧ fix_depth_structure fs' = Except.ok fs'
      ∧ (fs.wrong = none → fs' = fs)
      ∧ ∀ f ∈ fs.wrong.getD [], f ∈ fs'.correct.getD [] := by
  cases hw : fs.wrong with
  | none =>
    refine ⟨fs, ?_, ?_, fun _ => rfl, ?_⟩
    · unfold fix_depth_structure
      rw [hw]
    · unfold fix_depth_structure
      rw [hw]
    · intro f hf
      simp at hf
  | some files =>
    refine ⟨{ wrong := none, correct := some (files.foldl moveOne cs) }, ?_, rfl, ?_, ?_⟩
    · unfold fix_depth_structure
      rw [hw, h]
    · intro hn
      exact absurd hn (by simp)
    · intro f hf
      simp only [Option.getD_some] at hf
      simpa using mem_foldl_moveOne files cs f hf

/-- C8 witness: the amended theorem at a concrete state with one misplaced
file and a distinct file already in the target directory. -/
theorem c8_witness :
    ∃ fs', fix_depth_structure { wrong := some ["a.png"], correct := some ["b.png"] }
        = Except.ok fs'
      ∧ fix_depth_structure fs' = Except.ok fs'
      ∧ (({ wrong := some ["a.png"], correct := some ["b.png"] } : DepthFS).wrong = none →
           fs' = { wrong := some ["a.png"], correct := some ["b.png"] })
      ∧ ∀ f ∈ (({ wrong := some ["a.png"], correct := some ["b.png"] } : DepthFS).wrong).getD [],
          f ∈ fs'.correct.getD [] :=
  c8_repair_idempotent_total { wrong := some ["a.png"], correct := some ["b.png"] } ["b.png"] rfl

/-! ## Round trip of the summary serialisation (claim C10) -/

theorem skipWs_cons_not (c : Char) (cs : List Char) (h : isWsChar c = false) :
    skipWs (c :: cs) = c :: cs := by
  simp [skipWs, h]

theorem skipWs_pad (k : Nat) (cs : List Char) : skipWs (pad k ++ cs) = skipWs cs := by
  induction k with
  | zero => rfl
  | succ m ih => simpa [pad, List.replicate_succ, skipWs] using ih

theorem skipWs_nl_pad (k : Nat) (c : Char) (cs : List Char) (h : isWsChar c = false) :
    skipWs ('\n' :: (pad k ++ (c :: cs))) = c :: cs := by
  rw [show skipWs ('\n' :: (pad k ++ (c :: cs))) = skipWs (pad k ++ (c :: cs)) from rfl,
      skipWs_pad, skipWs_cons_not c cs h]

theorem natToChars_eq (n : Nat) : natToChars n
    = if n < 10 then [Nat.digitChar n] else natToChars (n / 10) ++ [Nat.digitChar (n % 10)] := by
  nth_rewrite 1 [natToChars]
  rfl

theorem digitChar_isDigit (k : Nat) (h : k < 10) : isDigitChar (Nat.digitChar k) = true := by
  interval_cases k <;> decide

theorem digitChar_val (k : Nat) (h : k < 10) : (Nat.digitChar k).toNat - 48 = k := by
  interval_cases k <;> decide

theorem digitChar_isHex (k : Nat) (h : k < 16) : isHex (Nat.digitChar k) = true := by
  interval_cases k <;> decide

theorem digitChar_hexVal (k : Nat) (h : k < 16) : hexVal (Nat.digitChar k) = k := by
  interval_cases k <;> decide

theorem natToChars_digits (n : Nat) : ∀ c ∈ natToChars n, isDigitChar c = true := by
  induction n using Nat.strong_induction_on with
  | _ n ih =>
    intro c hc
    rw [natToChars_eq] at hc
    by_cases h10 : n < 10
    · rw [if_pos h10] at hc
      simp at hc
      subst hc
      exact digitChar_isDigit n h10
    · rw [if_neg h10] at hc
      rcases List.mem_append.mp hc with h1 | h2
      · exact ih (n / 10) (Nat.div_lt_self (by omega) (by omega)) c h1
      · simp at h2
        subst h2
        exact digitChar_isDigit (n % 10) (Nat.mod_lt n (by omega))

theorem natToChars_cons (n : Nat) :
    ∃ d ds, natToChars n = d :: ds ∧ isDigitChar d = true := by
  induction n using Nat.strong_induction_on with
  | _ n ih =>
    rw [natToChars_eq]
    by_cases h10 : n < 10
    · exact ⟨Nat.digitChar n, [], by rw [if_pos h10], digitChar_isDigit n h10⟩
    · obtain ⟨d, ds, hd, hdig⟩ := ih (n / 10) (Nat.div_lt_self (by omega) (by omega))
      exact ⟨d, ds ++ [Nat.digitChar (n % 10)], by rw [if_neg h10, hd]; rfl, hdig⟩

theorem isDigitChar_bounds (d : Char) (h : isDigitChar d = true) :
    48 ≤ d.toNat ∧ d.toNat ≤ 57 := by
  unfold isDigitChar at h
  split at h
  · assumption
  · simp at h

theorem digit_not_special (d : Char) (h : isDigitChar d = true) :
    isWsChar d = false ∧ ¬ d = 'n' ∧ ¬ d = 't' ∧ ¬ d = 'f' ∧ ¬ d = 'N' ∧ ¬ d = 'I'
      ∧ ¬ d = '"' ∧ ¬ d = '[' ∧ ¬ d = '{' ∧ ¬ d = '-' ∧ ¬ d = ']' ∧ ¬ d = '}' := by
  have hb := isDigitChar_bounds d h
  refine ⟨?_, ?_, ?_, ?_, ?_, ?_, ?_, ?_, ?_, ?_, ?_, ?_⟩
  · unfold isWsChar
    rw [if_neg]
    rintro (hc | hc | hc | hc) <;> exact absurd (hc ▸ hb) (by decide)
  all_goals intro he
  all_goals exact absurd (he ▸ hb) (by decide)

theorem hexVal4_digits (m : Nat) (h : m < 0x10000) :
    hexVal4 (Nat.digitChar (m / 4096 % 16)) (Nat.digitChar (m / 256 % 16))
      (Nat.digitChar (m / 16 % 16)) (Nat.digitChar (m % 16)) = m := by
  unfold hexVal4
  rw [digitChar_hexVal _ (Nat.mod_lt _ (by omega)), digitChar_hexVal _ (Nat.mod_lt _ (by omega)),
      digitChar_hexVal _ (Nat.mod_lt _ (by omega)), digitChar_hexVal _ (Nat.mod_lt _ (by omega))]
  omega

theorem decodeU_bmp (t : Nat) (suffix : List Char) (hlt : t < 0x10000)
    (hs : t < 0xd800 ∨ 0xdfff < t) :
    decodeU (hex4 t ++ suffix) = some (Char.ofNat t, suffix) := by
  rw [show hex4 t ++ suffix
      = Nat.digitChar (t / 4096 % 16) :: Nat.digitChar (t / 256 % 16)
          :: Nat.digitChar (t / 16 % 16) :: Nat.digitChar (t % 16) :: suffix
      from by simp [hex4]]
  simp only [decodeU]
  rw [digitChar_isHex _ (Nat.mod_lt _ (by omega)), digitChar_isHex _ (Nat.mod_lt _ (by omega)),
      digitChar_isHex _ (Nat.mod_lt _ (by omega)), digitChar_isHex _ (Nat.mod_lt _ (by omega))]
  simp only [Bool.and_self, if_true]
  rw [hexVal4_digits t hlt]
  rw [if_neg (by omega), if_neg (by omega)]

theorem decodeU_astral (t : Nat) (suffix : List Char) (h1 : 0x10000 ≤ t) (h2 : t < 0x110000) :
    decodeU ((hex4 (0xd800 + (t - 0x10000) / 0x400)
        ++ '\\' :: 'u' :: hex4 (0xdc00 + (t - 0x10000) % 0x400)) ++ suffix)
      = some (Char.ofNat t, suffix) := by
  rw [show (hex4 (0xd800 + (t - 0x10000) / 0x400)
        ++ '\\' :: 'u' :: hex4 (0xdc00 + (t - 0x10000) % 0x400)) ++ suffix
      = Nat.digitChar ((0xd800 + (t - 0x10000) / 0x400) / 4096 % 16)
          :: Nat.digitChar ((0xd800 + (t - 0x10000) / 0x400) / 256 % 16)
          :: Nat.digitChar ((0xd800 + (t - 0x10000) / 0x400) / 16 % 16)
          :: Nat.digitChar ((0xd800 + (t - 0x10000) / 0x400) % 16)
          :: '\\' :: 'u' :: Nat.digitChar ((0xdc00 + (t - 0x10000) % 0x400) / 4096 % 16)
          :: Nat.digitChar ((0xdc00 + (t - 0x10000) % 0x400) / 256 % 16)
          :: Nat.digitChar ((0xdc00 + (t - 0x10000) % 0x400) / 16 % 16)
          :: Nat.digitChar ((0xdc00 + (t - 0x10000) % 0x400) % 16)
          :: suffix
      from by simp [hex4]]
  simp only [decodeU]
  rw [digitChar_isHex _ (Nat.mod_lt _ (by omega)), digitChar_isHex _ (Nat.mod_lt _ (by omega)),
      digitChar_isHex _ (Nat.mod_lt _ (by omega)), digitChar_isHex _ (Nat.mod_lt _ (by omega))]
  simp only [Bool.and_self, if_true]
  rw [hexVal4_digits _ (by omega)]
  rw [if_pos (by omega)]
  simp only [true_and]
  rw [digitChar_isHex _ (Nat.mod_lt _ (by omega)), digitChar_isHex _ (Nat.mod_lt _ (by omega)),
      digitChar_isHex _ (Nat.mod_lt _ (by omega)), digitChar_isHex _ (Nat.mod_lt _ (by omega))]
  simp only [Bool.and_self, if_true]
  rw [hexVal4_digits _ (by omega)]
  rw [if_pos (by omega)]
  rw [show 0x10000 + ((0xd800 + (t - 0x10000) / 0x400) - 0xd800) * 0x400
        + ((0xdc00 + (t - 0x10000) % 0x400) - 0xdc00) = t from by omega]

theorem psb_escapeChar (c : Char) (suffix : List Char) (fuel : Nat) :
    parseStringBody (fuel + 1) (escapeChar c ++ suffix)
      = (parseStringBody fuel suffix).map (fun p => (c :: p.1, p.2)) := by
  unfold escapeChar
  by_cases h1 : c = '"'
  · subst h1; rw [if_pos rfl]; rfl
  rw [if_neg h1]
  by_cases h2 : c = '\\'
  · subst h2; rw [if_pos rfl]; rfl
  rw [if_neg h2]
  by_cases h3 : c = '\x08'
  · subst h3; rw [if_pos rfl]; rfl
  rw [if_neg h3]
  by_cases h4 : c = '\x0c'
  · subst h4; rw [if_pos rfl]; rfl
  rw [if_neg h4]
  by_cases h5 : c = '\n'
  · subst h5; rw [if_pos rfl]; rfl
  rw [if_neg h5]
  by_cases h6 : c = '\x0d'
  · subst h6; rw [if_pos rfl]; rfl
  rw [if_neg h6]
  by_cases h7 : c = '\t'
  · subst h7; rw [if_pos rfl]; rfl
  rw [if_neg h7]
  by_cases h8 : 0x20 ≤ c.toNat ∧ c.toNat ≤ 0x7e
  · rw [if_pos h8]
    show parseStringBody (fuel + 1) (c :: suffix) = _
    conv_lhs => rw [parseStringBody]
    rw [if_neg h1, if_neg h2]
  · rw [if_neg h8]
    have hvalid : c.toNat < 0xd800 ∨ (0xdfff < c.toNat ∧ c.toNat < 0x110000) := c.valid
    by_cases h9 : c.toNat < 0x10000
    · rw [if_pos h9]
      rw [show ('\\' :: 'u' :: hex4 c.toNat) ++ suffix
          = '\\' :: 'u' :: (hex4 c.toNat ++ suffix) from by simp]
      conv_lhs => rw [parseStringBody]
      rw [if_neg (show ¬('\\' : Char) = '"' from by decide)]
      rw [show decodeEsc ('u' :: (hex4 c.toNat ++ suffix))
          = decodeU (hex4 c.toNat ++ suffix) from by simp [decodeEsc]]
      rw [decodeU_bmp c.toNat suffix h9 (by omega)]
      simp only [Char.ofNat_toNat, if_true]
    · rw [if_neg h9]
      rw [show ('\\' :: 'u' :: hex4 (0xd800 + (c.toNat - 0x10000) / 0x400)
            ++ '\\' :: 'u' :: hex4 (0xdc00 + (c.toNat - 0x10000) % 0x400)) ++ suffix
          = '\\' :: 'u' :: ((hex4 (0xd800 + (c.toNat - 0x10000) / 0x400)
              ++ '\\' :: 'u' :: hex4 (0xdc00 + (c.toNat - 0x10000) % 0x400)) ++ suffix)
          from by simp]
      conv_lhs => rw [parseStringBody]
      rw [if_neg (show ¬('\\' : Char) = '"' from by decide)]
      rw [show decodeEsc ('u' :: ((hex4 (0xd800 + (c.toNat - 0x10000) / 0x400)
            ++ '\\' :: 'u' :: hex4 (0xdc00 + (c.toNat - 0x10000) % 0x400)) ++ suffix))
          = decodeU ((hex4 (0xd800 + (c.toNat - 0x10000) / 0x400)
            ++ '\\' :: 'u' :: hex4 (0xdc00 + (c.toNat - 0x10000) % 0x400)) ++ suffix)
          from by simp [decodeEsc]]
      rw [decodeU_astral c.toNat suffix (by omega) (by omega)]
      simp only [Char.ofNat_toNat, if_true]

theorem psb_escChars (cs : List Char) : ∀ (suffix : List Char) (fuel : Nat),
    cs.length + 1 ≤ fuel →
    parseStringBody fuel (escChars cs ++ '"' :: suffix) = some (cs, suffix) := by
  induction cs with
  | nil =>
    intro suffix fuel hf
    cases fuel with
    | zero => omega
    | succ g => rfl
  | cons c cs ih =>
    intro suffix fuel hf
    cases fuel with
    | zero => omega
    | succ g =>
      rw [show escChars (c :: cs) ++ '"' :: suffix
          = escapeChar c ++ (escChars cs ++ '"' :: suffix) from by simp [escChars]]
      rw [psb_escapeChar c _ g, ih suffix g (by simpa using hf)]
      rfl

theorem escapeChar_length_pos (c : Char) : 1 ≤ (escapeChar c).length := by
  unfold escapeChar
  split_ifs <;> simp [hex4]

theorem escChars_length (cs : List Char) : cs.length ≤ (escChars cs).length := by
  induction cs with
  | nil => simp [escChars]
  | cons c cs ih =>
    have := escapeChar_length_pos c
    simp only [escChars, List.length_append, List.length_cons]
    omega

theorem takeDigits_break (rest : List Char)
    (hb : ∀ c cs2, rest = c :: cs2 → isDigitChar c = false) :
    takeDigits rest = ([], rest) := by
  cases rest with
  | nil => rfl
  | cons c cs => simp [takeDigits, hb c cs rfl]

theorem takeDigits_append (ds rest : List Char)
    (hd : ∀ c ∈ ds, isDigitChar c = true)
    (hb : ∀ c cs2, rest = c :: cs2 → isDigitChar c = false) :
    takeDigits (ds ++ rest) = (ds, rest) := by
  induction ds with
  | nil => simpa using takeDigits_break rest hb
  | cons c cs ih =>
    have hc := hd c (by simp)
    simp only [List.cons_append, takeDigits, hc, if_true]
    rw [List.append_eq, ih (fun x hx => hd x (by simp [hx]))]

theorem takeDigits_concat (cs : List Char) :
    (takeDigits cs).1 ++ (takeDigits cs).2 = cs := by
  induction cs with
  | nil => rfl
  | cons c cs ih =>
    by_cases h : isDigitChar c
    · simp [takeDigits, h, ih]
    · simp [takeDigits, h]

theorem takeDigits_digits (cs : List Char) :
    ∀ c ∈ (takeDigits cs).1, isDigitChar c = true := by
  induction cs with
  | nil => intro c hc; simp [takeDigits] at hc
  | cons c cs ih =>
    intro d hd
    by_cases h : isDigitChar c
    · simp only [takeDigits, h, if_true] at hd
      rcases List.mem_cons.mp hd with hd | hd
      · subst hd; exact h
      · exact ih d hd
    · simp [takeDigits, h] at hd

theorem isNumCont_parts (c : Char) (h : isNumCont c = false) :
    isDigitChar c = false ∧ ¬ c = '.' ∧ ¬ c = 'e' ∧ ¬ c = 'E' := by
  simp only [isNumCont, Bool.or_eq_false_iff, decide_eq_false_iff_not] at h
  exact ⟨h.1.1.1, h.1.1.2, h.1.2, h.2⟩

theorem parseFrac_break (cs : List Char)
    (hb : ∀ c cs2, cs = c :: cs2 → ¬ c = '.') :
    parseFrac cs = ([], cs) := by
  cases cs with
  | nil => rfl
  | cons c cs => simp [parseFrac, hb c cs rfl]

theorem parseExp_break (cs : List Char)
    (hb : ∀ c cs2, cs = c :: cs2 → ¬ (c = 'e' ∨ c = 'E')) :
    parseExp cs = ([], cs) := by
  cases cs with
  | nil => rfl
  | cons c cs => simp [parseExp, hb c cs rfl]

theorem digit_not_sign (d : Char) (h : isDigitChar d = true) :
    ¬ (d = '+' ∨ d = '-') := by
  have hb := isDigitChar_bounds d h
  rintro (hc | hc) <;> exact absurd (hc ▸ hb) (by decide)

theorem digit_not_e (d : Char) (h : isDigitChar d = true) :
    ¬ (d = 'e' ∨ d = 'E') := by
  have hb := isDigitChar_bounds d h
  rintro (hc | hc) <;> exact absurd (hc ▸ hb) (by decide)

theorem digit_not_dot (d : Char) (h : isDigitChar d = true) : ¬ d = '.' := by
  have hb := isDigitChar_bounds d h
  intro hc
  exact absurd (hc ▸ hb) (by decide)

theorem takeDigits_cons_append (d : Char) (ds X : List Char)
    (hds : ∀ c ∈ d :: ds, isDigitChar c = true)
    (hb : ∀ c cs2, X = c :: cs2 → isDigitChar c = false) :
    takeDigits (d :: (ds ++ X)) = (d :: ds, X) := by
  rw [← List.cons_append]
  exact takeDigits_append (d :: ds) X hds hb

theorem parseFrac_append (d : Char) (ds X : List Char)
    (hds : ∀ c ∈ d :: ds, isDigitChar c = true)
    (hb : ∀ c cs2, X = c :: cs2 → isDigitChar c = false) :
    parseFrac ('.' :: ((d :: ds) ++ X)) = ('.' :: (d :: ds), X) := by
  simp only [parseFrac, reduceIte, List.cons_append,
    takeDigits_cons_append d ds X hds hb]

theorem parseExp_append_nosign (e0 d : Char) (ds X : List Char)
    (he : e0 = 'e' ∨ e0 = 'E')
    (hds : ∀ c ∈ d :: ds, isDigitChar c = true)
    (hb : ∀ c cs2, X = c :: cs2 → isDigitChar c = false) :
    parseExp (e0 :: ((d :: ds) ++ X)) = (e0 :: (d :: ds), X) := by
  simp only [List.cons_append, parseExp, if_pos he,
    if_neg (digit_not_sign d (hds d (by simp))),
    takeDigits_cons_append d ds X hds hb]

theorem parseExp_append_sign (e0 s d : Char) (ds X : List Char)
    (he : e0 = 'e' ∨ e0 = 'E')
    (hs : s = '+' ∨ s = '-')
    (hds : ∀ c ∈ d :: ds, isDigitChar c = true)
    (hb : ∀ c cs2, X = c :: cs2 → isDigitChar c = false) :
    parseExp (e0 :: s :: ((d :: ds) ++ X)) = (e0 :: s :: (d :: ds), X) := by
  simp only [List.cons_append, parseExp, if_pos he, if_pos hs,
    takeDigits_cons_append d ds X hds hb]

theorem parseFrac_inv (cs : List Char) :
    (parseFrac cs).1 = [] ∧ (parseFrac cs).2 = cs
    ∨ ∃ d ds, (parseFrac cs).1 = '.' :: (d :: ds)
        ∧ (∀ c ∈ d :: ds, isDigitChar c = true)
        ∧ cs = (parseFrac cs).1 ++ (parseFrac cs).2 := by
  cases cs with
  | nil => exact Or.inl ⟨rfl, rfl⟩
  | cons c cs =>
    by_cases hc : c = '.'
    · subst hc
      cases htd : takeDigits cs with
      | mk ds r =>
        cases ds with
        | nil => exact Or.inl (by constructor <;> simp [parseFrac, htd]
                               )
        | cons d ds =>
          refine Or.inr ⟨d, ds, by simp [parseFrac, htd], ?_, ?_⟩
          · intro x hx
            have hdig := takeDigits_digits cs
            rw [htd] at hdig
            exact hdig x hx
          · have hcat := takeDigits_concat cs
            rw [htd] at hcat
            simp only at hcat
            rw [show (parseFrac ('.' :: cs)).1 = '.' :: (d :: ds) from by
                  simp [parseFrac, htd],
                show (parseFrac ('.' :: cs)).2 = r from by simp [parseFrac, htd],
                ← hcat]
            rfl
    · exact Or.inl (by constructor <;> simp [parseFrac, hc])

theorem parseExp_inv (cs : List Char) :
    (parseExp cs).1 = [] ∧ (parseExp cs).2 = cs
    ∨ (∃ e0 d ds, (e0 = 'e' ∨ e0 = 'E') ∧ (parseExp cs).1 = e0 :: (d :: ds)
        ∧ (∀ c ∈ d :: ds, isDigitChar c = true)
        ∧ cs = (parseExp cs).1 ++ (parseExp cs).2)
    ∨ (∃ e0 s d ds, (e0 = 'e' ∨ e0 = 'E') ∧ (s = '+' ∨ s = '-')
        ∧ (parseExp cs).1 = e0 :: s :: (d :: ds)
        ∧ (∀ c ∈ d :: ds, isDigitChar c = true)
        ∧ cs = (parseExp cs).1 ++ (parseExp cs).2) := by
  cases cs with
  | nil => exact Or.inl ⟨rfl, rfl⟩
  | cons c cs =>
    by_cases he : c = 'e' ∨ c = 'E'
    · cases cs with
      | nil => exact Or.inl (by constructor <;> simp [parseExp, he])
      | cons s cs2 =>
        by_cases hs : s = '+' ∨ s = '-'
        · cases htd : takeDigits cs2 with
          | mk ds r =>
            cases ds with
            | nil => exact Or.inl (by constructor <;> simp [parseExp, he, hs, htd])
            | cons d ds =>
              refine Or.inr (Or.inr ⟨c, s, d, ds, he, hs,
                by simp [parseExp, he, hs, htd], ?_, ?_⟩)
              · intro x hx
                have hdig := takeDigits_digits cs2
                rw [htd] at hdig
                exact hdig x hx
              · have hcat := takeDigits_concat cs2
                rw [htd] at hcat
                simp only at hcat
                rw [show (parseExp (c :: s :: cs2)).1 = c :: s :: (d :: ds) from by
                      simp [parseExp, he, hs, htd],
                    show (parseExp (c :: s :: cs2)).2 = r from by
                      simp [parseExp, he, hs, htd],
                    ← hcat]
                rfl
        · cases htd : takeDigits (s :: cs2) with
          | mk ds r =>
            cases ds with
            | nil => exact Or.inl (by constructor <;> simp [parseExp, he, hs, htd])
            | cons d ds =>
              refine Or.inr (Or.inl ⟨c, d, ds, he,
                by simp [parseExp, he, hs, htd], ?_, ?_⟩)
              · intro x hx
                have hdig := takeDigits_digits (s :: cs2)
                rw [htd] at hdig
                exact hdig x hx
              · have hcat := takeDigits_concat (s :: cs2)
                rw [htd] at hcat
                simp only at hcat
                rw [show (parseExp (c :: s :: cs2)).1 = c :: (d :: ds) from by
                      simp [parseExp, he, hs, htd],
                    show (parseExp (c :: s :: cs2)).2 = r from by
                      simp [parseExp, he, hs, htd],
                    ← hcat]
                rfl
    · exact Or.inl (by constructor <;> simp [parseExp, he])

theorem pyFloatValCore_inv (cs : List Char) (h : (pyFloatValCore cs).isSome = true) :
    ∃ ip fp ep,
      cs = ip ++ fp ++ ep
      ∧ (∃ d ds, ip = d :: ds) ∧ (∀ c ∈ ip, isDigitChar c = true)
      ∧ (fp = [] ∨ ∃ d ds, fp = '.' :: (d :: ds) ∧ ∀ c ∈ d :: ds, isDigitChar c = true)
      ∧ (ep = []
          ∨ (∃ e0 d ds, (e0 = 'e' ∨ e0 = 'E') ∧ ep = e0 :: (d :: ds)
               ∧ ∀ c ∈ d :: ds, isDigitChar c = true)
          ∨ (∃ e0 s d ds, (e0 = 'e' ∨ e0 = 'E') ∧ (s = '+' ∨ s = '-')
               ∧ ep = e0 :: s :: (d :: ds) ∧ ∀ c ∈ d :: ds, isDigitChar c = true))
      ∧ ¬ (fp = [] ∧ ep = []) := by
  unfold pyFloatValCore at h
  cases htd : takeDigits cs with
  | mk ip cs2 =>
    rw [htd] at h
    cases ip with
    | nil => simp at h
    | cons d0 ds0 =>
      dsimp only at h
      have hcat : (d0 :: ds0) ++ cs2 = cs := by
        have := takeDigits_concat cs
        rw [htd] at this
        exact this
      have hdig : ∀ c ∈ d0 :: ds0, isDigitChar c = true := by
        have := takeDigits_digits cs
        rw [htd] at this
        exact this
      cases hfr : parseFrac cs2 with
      | mk fp cs3 =>
        rw [hfr] at h
        dsimp only at h
        cases hex : parseExp cs3 with
        | mk ep cs4 =>
          rw [hex] at h
          dsimp only at h
          have hcond : ¬ ((fp = [] ∧ ep = []) ∨ ¬ cs4 = []) := by
            intro hc
            rw [if_pos hc] at h
            simp at h
          have hne : ¬ (fp = [] ∧ ep = []) := fun hc => hcond (Or.inl hc)
          have hcs4 : cs4 = [] := by
            by_contra hc
            exact hcond (Or.inr hc)
          have hfr2 : cs2 = fp ++ cs3 := by
            rcases parseFrac_inv cs2 with ⟨h1, h2⟩ | ⟨d, ds, h1, _, h2⟩
            · rw [hfr] at h1 h2
              simp only at h1 h2
              rw [h1, h2]
              rfl
            · rw [hfr] at h2
              exact h2
          have hex2 : cs3 = ep ++ cs4 := by
            rcases parseExp_inv cs3 with ⟨h1, h2⟩ | ⟨e0, d, ds, _, h1, _, h2⟩ |
              ⟨e0, s, d, ds, _, _, h1, _, h2⟩
            · rw [hex] at h1 h2
              simp only at h1 h2
              rw [h1, h2]
              rfl
            · rw [hex] at h2
              exact h2
            · rw [hex] at h2
              exact h2
          refine ⟨d0 :: ds0, fp, ep, ?_, ⟨d0, ds0, rfl⟩, hdig, ?_, ?_, hne⟩
          · rw [← hcat, hfr2, hex2, hcs4, List.append_nil, List.append_assoc]
          · rcases parseFrac_inv cs2 with ⟨h1, _⟩ | ⟨d, ds, h1, hds, _⟩
            · rw [hfr] at h1
              exact Or.inl h1
            · rw [hfr] at h1
              exact Or.inr ⟨d, ds, h1, hds⟩
          · rcases parseExp_inv cs3 with ⟨h1, _⟩ | ⟨e0, d, ds, he, h1, hds, _⟩ |
              ⟨e0, s, d, ds, he, hs, h1, hds, _⟩
            · rw [hex] at h1
              exact Or.inl h1
            · rw [hex] at h1
              exact Or.inr (Or.inl ⟨e0, d, ds, he, h1, hds⟩)
            · rw [hex] at h1
              exact Or.inr (Or.inr ⟨e0, s, d, ds, he, hs, h1, hds⟩)

theorem validFloatRepr_head (r : List Char) (h : validFloatRepr r = true) :
    ∃ c cs, r = c :: cs ∧ (c = '-' ∨ isDigitChar c = true) := by
  unfold validFloatRepr at h
  cases r with
  | nil => simp [pyFloatVal] at h
  | cons c cs =>
    by_cases hc : c = '-'
    · exact ⟨c, cs, rfl, Or.inl hc⟩
    · refine ⟨c, cs, rfl, Or.inr ?_⟩
      rw [show pyFloatVal (c :: cs) = pyFloatValCore (c :: cs) from by
        simp [pyFloatVal, hc]] at h
      by_cases hd : isDigitChar c
      · exact hd
      · rw [show pyFloatValCore (c :: cs) = none from by
          simp [pyFloatValCore, takeDigits, hd]] at h
        simp at h

theorem digitsVal_append_single (ds : List Char) (c : Char) :
    digitsVal (ds ++ [c]) = digitsVal ds * 10 + (c.toNat - 48) := by
  simp [digitsVal, List.foldl_append]

theorem digitsVal_natToChars (n : Nat) : digitsVal (natToChars n) = n := by
  induction n using Nat.strong_induction_on with
  | _ n ih =>
    rw [natToChars_eq]
    by_cases h10 : n < 10
    · rw [if_pos h10]
      have := digitChar_val n h10
      simp [digitsVal]
      omega
    · rw [if_neg h10, digitsVal_append_single,
          ih (n / 10) (Nat.div_lt_self (by omega) (by omega)),
          digitChar_val (n % 10) (Nat.mod_lt n (by omega))]
      omega

theorem parseNatNum_natToChars (n : Nat) (rest : List Char)
    (hb : ∀ c cs2, rest = c :: cs2 → isDigitChar c = false) :
    parseNatNum (natToChars n ++ rest) = some (n, rest) := by
  unfold parseNatNum
  rw [takeDigits_append _ _ (natToChars_digits n) hb]
  obtain ⟨d, ds, hd, _⟩ := natToChars_cons n
  rw [hd]
  show some (digitsVal (d :: ds), rest) = some (n, rest)
  rw [← hd, digitsVal_natToChars]

theorem render_head (lvl : Nat) (j : Json) (hwf : wfJson j = true) :
    ∃ c cs, render lvl j = c :: cs ∧ isWsChar c = false ∧ ¬ c = ']' ∧ ¬ c = '}' := by
  cases j with
  | null => exact ⟨'n', _, rfl, by decide, by decide, by decide⟩
  | bool b =>
    cases b with
    | false => exact ⟨'f', _, rfl, by decide, by decide, by decide⟩
    | true => exact ⟨'t', _, rfl, by decide, by decide, by decide⟩
  | num n =>
    show ∃ c cs, intChars n = c :: cs ∧ _
    unfold intChars
    by_cases hn : n < 0
    · rw [if_pos hn]
      exact ⟨'-', _, rfl, by decide, by decide, by decide⟩
    · rw [if_neg hn]
      obtain ⟨d, ds, hd, hdig⟩ := natToChars_cons n.toNat
      obtain ⟨hws, _, _, _, _, _, _, _, _, _, hne1, hne2⟩ := digit_not_special d hdig
      exact ⟨d, ds, hd, hws, hne1, hne2⟩
  | fnum f =>
    cases f with
    | nan => exact ⟨'N', _, rfl, by decide, by decide, by decide⟩
    | inf => exact ⟨'I', _, rfl, by decide, by decide, by decide⟩
    | ninf => exact ⟨'-', _, rfl, by decide, by decide, by decide⟩
    | finite r =>
      obtain ⟨c, cs, hr, hc⟩ := validFloatRepr_head r hwf
      have hrender : render lvl (Json.fnum (PyFloat.finite r)) = c :: cs := by
        simp [render, floatChars, hr]
      rcases hc with hc | hc
      · subst hc
        exact ⟨'-', cs, hrender, by decide, by decide, by decide⟩
      · obtain ⟨hws, _, _, _, _, _, _, _, _, _, hne1, hne2⟩ := digit_not_special c hc
        exact ⟨c, cs, hrender, hws, hne1, hne2⟩
  | str s => exact ⟨'"', _, rfl, by decide, by decide, by decide⟩
  | arr xs =>
    cases xs with
    | nil => exact ⟨'[', _, rfl, by decide, by decide, by decide⟩
    | cons x xs => exact ⟨'[', _, rfl, by decide, by decide, by decide⟩
  | obj ms =>
    cases ms with
    | nil => exact ⟨'{', _, rfl, by decide, by decide, by decide⟩
    | cons m ms => exact ⟨'{', _, rfl, by decide, by decide, by decide⟩

theorem arrRest_break (lvlA : Nat) (xs : List Json) (tail : List Char) :
    ∀ c cs2, renderArrRest lvlA xs ++ '\n' :: tail = c :: cs2 → isNumCont c = false := by
  cases xs with
  | nil =>
    intro c cs2 h
    simp only [renderArrRest, List.nil_append] at h
    injection h with h1 h2
    rw [← h1]
    decide
  | cons x xs =>
    intro c cs2 h
    simp only [renderArrRest, List.cons_append] at h
    injection h with h1 h2
    rw [← h1]
    decide

theorem objRest_break (lvlA : Nat) (ms : List (String × Json)) (tail : List Char) :
    ∀ c cs2, renderObjRest lvlA ms ++ '\n' :: tail = c :: cs2 → isNumCont c = false := by
  cases ms with
  | nil =>
    intro c cs2 h
    simp only [renderObjRest, List.nil_append] at h
    injection h with h1 h2
    rw [← h1]
    decide
  | cons m ms =>
    intro c cs2 h
    simp only [renderObjRest, List.cons_append] at h
    injection h with h1 h2
    rw [← h1]
    decide

theorem one_le_need (j : Json) : 1 ≤ need j := by
  cases j with
  | arr xs => cases xs <;> simp [need]
  | obj ms => cases ms <;> simp [need]
  | null => simp [need]
  | bool b => simp [need]
  | fnum f => simp [need]
  | num n => simp [need]
  | str s => simp [need]

theorem one_le_needList (xs : List Json) : 1 ≤ needList xs := by
  cases xs <;> simp [needList]

theorem one_le_needObj (ms : List (String × Json)) : 1 ≤ needObj ms := by
  cases ms <;> simp [needObj]

theorem skipWs_idem (cs : List Char) : skipWs (skipWs cs) = skipWs cs := by
  induction cs with
  | nil => rfl
  | cons c cs ih =>
    by_cases h : isWsChar c
    · simp [skipWs, h, ih]
    · simp [skipWs, h]

theorem parseValue_skip (fuel : Nat) (cs : List Char) :
    parseValue (fuel + 1) cs = parseValue (fuel + 1) (skipWs cs) := by
  conv_lhs => rw [parseValue]
  conv_rhs => rw [parseValue]
  rw [skipWs_idem]

theorem pv_arr_step (fuel : Nat) (inner : List Char) (c2 : Char) (rest2 : List Char)
    (h : skipWs inner = c2 :: rest2) (hne : ¬ c2 = ']') :
    parseValue (fuel + 1) ('[' :: inner)
      = (match parseValue fuel (c2 :: rest2) with
        | none => none
        | some (x, rest3) =>
          match parseArrRest fuel rest3 with
          | none => none
          | some (xs, rest4) => some (Json.arr (x :: xs), rest4)) := by
  conv_lhs => rw [parseValue]
  rw [skipWs_cons_not '[' inner (by decide)]
  simp only [reduceIte]
  rw [h]
  simp [hne]

theorem pv_obj_step (fuel : Nat) (inner : List Char) (rest2 : List Char)
    (h : skipWs inner = '"' :: rest2) :
    parseValue (fuel + 1) ('{' :: inner)
      = (match parseStringBody (rest2.length + 1) rest2 with
         | none => none
         | some (k, rest3) =>
           match skipWs rest3 with
           | ':' :: rest4 =>
             match parseValue fuel rest4 with
             | none => none
             | some (v, rest5) =>
               match parseObjRest fuel rest5 with
               | none => none
               | some (ms, rest6) => some (Json.obj ((String.mk k, v) :: ms), rest6)
           | _ => none) := by
  conv_lhs => rw [parseValue]
  rw [skipWs_cons_not '{' inner (by decide)]
  simp only [reduceIte]
  rw [h]
  simp

theorem pv_num (fuel : Nat) (n : Int) (rest : List Char)
    (hb : ∀ c cs2, rest = c :: cs2 → isNumCont c = false) :
    parseValue (fuel + 1) (intChars n ++ rest) = some (Json.num n, rest) := by
  have hbd : ∀ c cs2, rest = c :: cs2 → isDigitChar c = false :=
    fun c cs2 hc => (isNumCont_parts c (hb c cs2 hc)).1
  have hfr : parseFrac rest = ([], rest) :=
    parseFrac_break rest (fun c cs2 hc => (isNumCont_parts c (hb c cs2 hc)).2.1)
  have hex : parseExp rest = ([], rest) := by
    refine parseExp_break rest (fun c cs2 hc => ?_)
    obtain ⟨_, _, h1, h2⟩ := isNumCont_parts c (hb c cs2 hc)
    rintro (h | h)
    · exact h1 h
    · exact h2 h
  unfold intChars
  by_cases hn : n < 0
  · rw [if_pos hn]
    obtain ⟨d, ds, hd, hdig⟩ := natToChars_cons n.natAbs
    have htd : takeDigits (natToChars n.natAbs ++ rest) = (d :: ds, rest) := by
      rw [takeDigits_append _ _ (natToChars_digits _) hbd, hd]
    rw [show ('-' :: natToChars n.natAbs) ++ rest = '-' :: (natToChars n.natAbs ++ rest) from rfl]
    conv_lhs => rw [parseValue]
    rw [skipWs_cons_not '-' _ (by decide)]
    simp only [reduceIte]
    simp only [htd, hfr, hex]
    rw [show (d :: ds : List Char) = natToChars n.natAbs from hd.symm, digitsVal_natToChars]
    show some (Json.num (-(n.natAbs : Int)), rest) = some (Json.num n, rest)
    rw [show (-(n.natAbs : Int)) = n from by omega]
  · rw [if_neg hn]
    obtain ⟨d, ds, hd, hdig⟩ := natToChars_cons n.toNat
    have hds : ∀ c ∈ d :: ds, isDigitChar c = true := by
      rw [← hd]
      exact natToChars_digits n.toNat
    have htd : takeDigits (d :: (ds ++ rest)) = (d :: ds, rest) :=
      takeDigits_cons_append d ds rest hds hbd
    obtain ⟨hws, hn1, hn2, hn3, hn4, hn5, hn6, hn7, hn8, hn9, _, _⟩ :=
      digit_not_special d hdig
    rw [hd, show (d :: ds) ++ rest = d :: (ds ++ rest) from rfl]
    conv_lhs => rw [parseValue]
    rw [skipWs_cons_not d _ hws]
    simp only [if_neg hn1, if_neg hn2, if_neg hn3, if_neg hn4, if_neg hn5, if_neg hn6,
      if_neg hn7, if_neg hn8, if_neg hn9]
    simp only [htd, hfr, hex]
    rw [show (d :: ds : List Char) = natToChars n.toNat from hd.symm, digitsVal_natToChars]
    show some (Json.num ((n.toNat : Nat) : Int), rest) = some (Json.num n, rest)
    rw [show ((n.toNat : Nat) : Int) = n from by omega]

theorem float_token_steps (ip fp ep rest : List Char)
    (hdig : ∀ c ∈ ip, isDigitChar c = true)
    (hfp : fp = [] ∨ ∃ d ds, fp = '.' :: (d :: ds) ∧ ∀ c ∈ d :: ds, isDigitChar c = true)
    (hep : ep = []
        ∨ (∃ e0 d ds, (e0 = 'e' ∨ e0 = 'E') ∧ ep = e0 :: (d :: ds)
             ∧ ∀ c ∈ d :: ds, isDigitChar c = true)
        ∨ (∃ e0 s d ds, (e0 = 'e' ∨ e0 = 'E') ∧ (s = '+' ∨ s = '-')
             ∧ ep = e0 :: s :: (d :: ds) ∧ ∀ c ∈ d :: ds, isDigitChar c = true))
    (hb : ∀ c cs2, rest = c :: cs2 → isNumCont c = false) :
    takeDigits (ip ++ (fp ++ (ep ++ rest))) = (ip, fp ++ (ep ++ rest))
    ∧ parseFrac (fp ++ (ep ++ rest)) = (fp, ep ++ rest)
    ∧ parseExp (ep ++ rest) = (ep, rest) := by
  have hbd : ∀ c cs2, rest = c :: cs2 → isDigitChar c = false :=
    fun c cs2 hc => (isNumCont_parts c (hb c cs2 hc)).1
  have hbdot : ∀ c cs2, rest = c :: cs2 → ¬ c = '.' :=
    fun c cs2 hc => (isNumCont_parts c (hb c cs2 hc)).2.1
  have hbe : ∀ c cs2, rest = c :: cs2 → ¬ (c = 'e' ∨ c = 'E') := by
    intro c cs2 hc
    obtain ⟨_, _, h1, h2⟩ := isNumCont_parts c (hb c cs2 hc)
    rintro (h | h)
    · exact h1 h
    · exact h2 h
  have hepd : ∀ c cs2, ep ++ rest = c :: cs2 → isDigitChar c = false := by
    intro c cs2 hc
    rcases hep with h | ⟨e0, d, ds, he, h, _⟩ | ⟨e0, s, d, ds, he, _, h, _⟩
    · rw [h, List.nil_append] at hc
      exact hbd c cs2 hc
    · rw [h] at hc
      simp only [List.cons_append] at hc
      injection hc with h1 _
      subst h1
      rcases he with he | he <;> (subst he; decide)
    · rw [h] at hc
      simp only [List.cons_append] at hc
      injection hc with h1 _
      subst h1
      rcases he with he | he <;> (subst he; decide)
  have hepdot : ∀ c cs2, ep ++ rest = c :: cs2 → ¬ c = '.' := by
    intro c cs2 hc
    rcases hep with h | ⟨e0, d, ds, he, h, _⟩ | ⟨e0, s, d, ds, he, _, h, _⟩
    · rw [h, List.nil_append] at hc
      exact hbdot c cs2 hc
    · rw [h] at hc
      simp only [List.cons_append] at hc
      injection hc with h1 _
      subst h1
      rcases he with he | he <;> (subst he; decide)
    · rw [h] at hc
      simp only [List.cons_append] at hc
      injection hc with h1 _
      subst h1
      rcases he with he | he <;> (subst he; decide)
  have hfpd : ∀ c cs2, fp ++ (ep ++ rest) = c :: cs2 → isDigitChar c = false := by
    intro c cs2 hc
    rcases hfp with h | ⟨d, ds, h, _⟩
    · rw [h, List.nil_append] at hc
      exact hepd c cs2 hc
    · rw [h] at hc
      simp only [List.cons_append] at hc
      injection hc with h1 _
      subst h1
      decide
  refine ⟨takeDigits_append ip _ hdig hfpd, ?_, ?_⟩
  · rcases hfp with h | ⟨d, ds, h, hds⟩
    · subst h
      rw [List.nil_append]
      exact parseFrac_break _ hepdot
    · subst h
      rw [show ('.' :: (d :: ds)) ++ (ep ++ rest) = '.' :: ((d :: ds) ++ (ep ++ rest))
          from rfl]
      exact parseFrac_append d ds (ep ++ rest) hds hepd
  · rcases hep with h | ⟨e0, d, ds, he, h, hds⟩ | ⟨e0, s, d, ds, he, hs, h, hds⟩
    · subst h
      rw [List.nil_append]
      exact parseExp_break rest hbe
    · subst h
      rw [show (e0 :: (d :: ds)) ++ rest = e0 :: ((d :: ds) ++ rest) from rfl]
      exact parseExp_append_nosign e0 d ds rest he hds hbd
    · subst h
      rw [show (e0 :: s :: (d :: ds)) ++ rest = e0 :: s :: ((d :: ds) ++ rest) from rfl]
      exact parseExp_append_sign e0 s d ds rest he hs hds hbd

theorem pv_float (fuel : Nat) (r rest : List Char)
    (hwf : validFloatRepr r = true)
    (hb : ∀ c cs2, rest = c :: cs2 → isNumCont c = false) :
    parseValue (fuel + 1) (r ++ rest) = some (Json.fnum (PyFloat.finite r), rest) := by
  unfold validFloatRepr at hwf
  cases r with
  | nil => simp [pyFloatVal] at hwf
  | cons c tl =>
    by_cases hc : c = '-'
    · subst hc
      rw [show pyFloatVal ('-' :: tl) = (pyFloatValCore tl).map (fun p => (-p.1, p.2)) from by
        simp [pyFloatVal]] at hwf
      have hcore : (pyFloatValCore tl).isSome = true := by
        cases hx : pyFloatValCore tl with
        | none => rw [hx] at hwf; simp at hwf
        | some v => simp
      obtain ⟨ip, fp, ep, hcs, ⟨d, ds, hip⟩, hdig, hfp, hep, hne⟩ :=
        pyFloatValCore_inv tl hcore
      subst hip
      obtain ⟨htd, hfr, hex⟩ := float_token_steps (d :: ds) fp ep rest hdig hfp hep hb
      have htl : tl ++ rest = (d :: ds) ++ (fp ++ (ep ++ rest)) := by
        rw [hcs]
        simp [List.append_assoc]
      rw [show ('-' :: tl) ++ rest = '-' :: (tl ++ rest) from rfl]
      conv_lhs => rw [parseValue]
      rw [skipWs_cons_not '-' _ (by decide)]
      simp only [reduceIte]
      rw [htl]
      simp only [htd, hfr, hex]
      rw [if_neg hne, hcs]
      rfl
    · rw [show pyFloatVal (c :: tl) = pyFloatValCore (c :: tl) from by
        simp [pyFloatVal, hc]] at hwf
      obtain ⟨ip, fp, ep, hcs, ⟨d, ds, hip⟩, hdig, hfp, hep, hne⟩ :=
        pyFloatValCore_inv (c :: tl) hwf
      subst hip
      rw [show ((d :: ds) ++ fp) ++ ep = d :: (ds ++ (fp ++ ep)) from by simp] at hcs
      injection hcs with h1 h2
      subst h1
      subst h2
      obtain ⟨htd, hfr, hex⟩ := float_token_steps (c :: ds) fp ep rest hdig hfp hep hb
      obtain ⟨hws, hn1, hn2, hn3, hn4, hn5, hn6, hn7, hn8, hn9, _, _⟩ :=
        digit_not_special c (hdig c (by simp))
      rw [show (c :: (ds ++ (fp ++ ep))) ++ rest = c :: ((ds ++ (fp ++ ep)) ++ rest) from rfl]
      conv_lhs => rw [parseValue]
      rw [skipWs_cons_not c _ hws]
      simp only [if_neg hn1, if_neg hn2, if_neg hn3, if_neg hn4, if_neg hn5, if_neg hn6,
        if_neg hn7, if_neg hn8, if_neg hn9]
      rw [show c :: ((ds ++ (fp ++ ep)) ++ rest) = (c :: ds) ++ (fp ++ (ep ++ rest)) from by
        simp]
      simp only [htd, hfr, hex]
      rw [if_neg hne]
      simp [List.append_assoc]

theorem pv_str (fuel : Nat) (s : String) (lvl : Nat) (rest : List Char) :
    parseValue (fuel + 1) (render lvl (Json.str s) ++ rest) = some (Json.str s, rest) := by
  rw [show render lvl (Json.str s) ++ rest = '"' :: (escChars s.data ++ ('"' :: rest)) from by
    simp [render]]
  conv_lhs => rw [parseValue]
  rw [skipWs_cons_not '"' _ (by decide)]
  simp only [reduceIte]
  rw [psb_escChars s.data rest _ (by
    have := escChars_length s.data
    simp only [List.length_append, List.length_cons]
    omega)]
  rfl

theorem bool_and_parts (a b : Bool) (h : (a && b) = true) : a = true ∧ b = true := by
  simp at h
  exact h

theorem skipWs_comma (cs : List Char) : skipWs (',' :: cs) = ',' :: cs :=
  skipWs_cons_not ',' cs (by decide)

theorem skipWs_colon (cs : List Char) : skipWs (':' :: cs) = ':' :: cs :=
  skipWs_cons_not ':' cs (by decide)

theorem skipWs_render (lvl : Nat) (j : Json) (R : List Char) (hwf : wfJson j = true) :
    skipWs (render lvl j ++ R) = render lvl j ++ R := by
  obtain ⟨c0, cs0, hx0, hws0, _, _⟩ := render_head lvl j hwf
  rw [hx0, show (c0 :: cs0) ++ R = c0 :: (cs0 ++ R) from rfl, skipWs_cons_not c0 _ hws0]

/-- The serialisation/parse round trip: parsing the rendering of a
well-formed value (at any nesting level, with any remainder that cannot
extend a number token) succeeds and returns exactly that value, for any
fuel at least the value's `need`; likewise for the rendered item and
member lists. -/
theorem parse_render : ∀ fuel : Nat,
    (∀ j lvl rest, need j ≤ fuel → wfJson j = true →
       (∀ c cs2, rest = c :: cs2 → isNumCont c = false) →
       parseValue fuel (render lvl j ++ rest) = some (j, rest))
  ∧ (∀ xs lvlA lvlB rest, needList xs ≤ fuel → wfList xs = true →
       parseArrRest fuel (renderArrRest lvlA xs ++ '\n' :: (pad lvlB ++ (']' :: rest)))
         = some (xs, rest))
  ∧ (∀ ms lvlA lvlB rest, needObj ms ≤ fuel → wfObj ms = true →
       parseObjRest fuel (renderObjRest lvlA ms ++ '\n' :: (pad lvlB ++ ('}' :: rest)))
         = some (ms, rest)) := by
  intro fuel
  induction fuel with
  | zero =>
    refine ⟨?_, ?_, ?_⟩
    · intro j lvl rest hneed _ _
      exact absurd (le_trans (one_le_need j) hneed) (by omega)
    · intro xs lvlA lvlB rest hneed _
      exact absurd (le_trans (one_le_needList xs) hneed) (by omega)
    · intro ms lvlA lvlB rest hneed _
      exact absurd (le_trans (one_le_needObj ms) hneed) (by omega)
  | succ fuel ih =>
    obtain ⟨ihP, ihQ, ihR⟩ := ih
    refine ⟨?_, ?_, ?_⟩
    · intro j lvl rest hneed hwf hb
      cases j with
      | null => rfl
      | bool b => cases b <;> rfl
      | num n => exact pv_num fuel n rest hb
      | fnum f =>
        cases f with
        | nan => rfl
        | inf => rfl
        | ninf => rfl
        | finite r => exact pv_float fuel r rest hwf hb
      | str s => exact pv_str fuel s lvl rest
      | arr xs =>
        cases xs with
        | nil => rfl
        | cons x xs =>
          have hneed' : need x ≤ fuel ∧ needList xs ≤ fuel := by
            simp [need] at hneed
            omega
          have hwf' : wfJson x = true ∧ wfList xs = true := bool_and_parts _ _ hwf
          obtain ⟨c0, cs0, hx0, hws0, hnb0, _⟩ := render_head (lvl + 4) x hwf'.1
          rw [show render lvl (Json.arr (x :: xs)) ++ rest
              = '[' :: ('\n' :: (pad (lvl + 4) ++ (render (lvl + 4) x
                  ++ (renderArrRest (lvl + 4) xs ++ '\n' :: (pad lvl ++ (']' :: rest))))))
              from by simp [render]]
          rw [pv_arr_step fuel _ c0
              (cs0 ++ (renderArrRest (lvl + 4) xs ++ '\n' :: (pad lvl ++ (']' :: rest))))
              (by
                rw [show '\n' :: (pad (lvl + 4) ++ (render (lvl + 4) x
                      ++ (renderArrRest (lvl + 4) xs ++ '\n' :: (pad lvl ++ (']' :: rest)))))
                    = '\n' :: (pad (lvl + 4) ++ (c0 :: (cs0
                      ++ (renderArrRest (lvl + 4) xs ++ '\n' :: (pad lvl ++ (']' :: rest))))))
                    from by rw [hx0]; rfl]
                exact skipWs_nl_pad (lvl + 4) c0 _ hws0)
              hnb0]
          rw [show c0 :: (cs0 ++ (renderArrRest (lvl + 4) xs
                ++ '\n' :: (pad lvl ++ (']' :: rest))))
              = render (lvl + 4) x
                ++ (renderArrRest (lvl + 4) xs ++ '\n' :: (pad lvl ++ (']' :: rest)))
              from by rw [hx0]; rfl]
          simp only [ihP x (lvl + 4) _ hneed'.1 hwf'.1
              (arrRest_break (lvl + 4) xs (pad lvl ++ (']' :: rest))),
            ihQ xs (lvl + 4) lvl rest hneed'.2 hwf'.2]
      | obj ms =>
        cases ms with
        | nil => rfl
        | cons m ms =>
          obtain ⟨k, v⟩ := m
          have hneed' : need v ≤ fuel ∧ needObj ms ≤ fuel := by
            simp [need] at hneed
            omega
          have hwfo : wfObj ((k, v) :: ms) = true := (bool_and_parts _ _ hwf).2
          have hwf' : wfJson v = true ∧ wfObj ms = true := bool_and_parts _ _ hwfo
          have hv : parseValue fuel (' ' :: (render (lvl + 4) v
              ++ (renderObjRest (lvl + 4) ms ++ '\n' :: (pad lvl ++ ('}' :: rest)))))
              = some (v, renderObjRest (lvl + 4) ms ++ '\n' :: (pad lvl ++ ('}' :: rest))) := by
            cases fuel with
            | zero => exact absurd (le_trans (one_le_need v) hneed'.1) (by omega)
            | succ g =>
              rw [parseValue_skip g _,
                  show skipWs (' ' :: (render (lvl + 4) v
                      ++ (renderObjRest (lvl + 4) ms ++ '\n' :: (pad lvl ++ ('}' :: rest)))))
                    = skipWs (render (lvl + 4) v
                      ++ (renderObjRest (lvl + 4) ms ++ '\n' :: (pad lvl ++ ('}' :: rest))))
                    from rfl,
                  skipWs_render (lvl + 4) v
                    (renderObjRest (lvl + 4) ms ++ '\n' :: (pad lvl ++ ('}' :: rest))) hwf'.1]
              exact ihP v (lvl + 4) _ hneed'.1 hwf'.1
                (objRest_break (lvl + 4) ms (pad lvl ++ ('}' :: rest)))
          rw [show render lvl (Json.obj ((k, v) :: ms)) ++ rest
              = '{' :: ('\n' :: (pad (lvl + 4) ++ ('"' :: (escChars k.data
                  ++ ('"' :: (':' :: (' ' :: (render (lvl + 4) v
                  ++ (renderObjRest (lvl + 4) ms ++ '\n' :: (pad lvl ++ ('}' :: rest)))))))))))
              from by simp [render, renderMember]]
          rw [pv_obj_step fuel _ (escChars k.data
              ++ ('"' :: (':' :: (' ' :: (render (lvl + 4) v
                  ++ (renderObjRest (lvl + 4) ms ++ '\n' :: (pad lvl ++ ('}' :: rest))))))))
              (skipWs_nl_pad (lvl + 4) '"' _ (by decide))]
          rw [psb_escChars k.data (':' :: (' ' :: (render (lvl + 4) v
              ++ (renderObjRest (lvl + 4) ms ++ '\n' :: (pad lvl ++ ('}' :: rest)))))) _
              (by
                have := escChars_length k.data
                simp only [List.length_append, List.length_cons]
                omega)]
          simp only [skipWs_colon, hv, ihR ms (lvl + 4) lvl rest hneed'.2 hwf'.2]
    · intro xs lvlA lvlB rest hneed hwf
      cases xs with
      | nil =>
        rw [show renderArrRest lvlA [] ++ '\n' :: (pad lvlB ++ (']' :: rest))
            = '\n' :: (pad lvlB ++ (']' :: rest)) from by simp [renderArrRest]]
        conv_lhs => rw [parseArrRest]
        rw [skipWs_nl_pad lvlB ']' rest (by decide)]
        rfl
      | cons x xs =>
        have hneed' : need x ≤ fuel ∧ needList xs ≤ fuel := by
          simp [needList] at hneed
          omega
        have hwf' : wfJson x = true ∧ wfList xs = true := bool_and_parts _ _ hwf
        have hv : parseValue fuel ('\n' :: (pad lvlA ++ (render lvlA x
            ++ (renderArrRest lvlA xs ++ '\n' :: (pad lvlB ++ (']' :: rest))))))
            = some (x, renderArrRest lvlA xs ++ '\n' :: (pad lvlB ++ (']' :: rest))) := by
          cases fuel with
          | zero => exact absurd (le_trans (one_le_need x) hneed'.1) (by omega)
          | succ g =>
            rw [parseValue_skip g _,
                show skipWs ('\n' :: (pad lvlA ++ (render lvlA x
                    ++ (renderArrRest lvlA xs ++ '\n' :: (pad lvlB ++ (']' :: rest))))))
                  = skipWs (pad lvlA ++ (render lvlA x
                    ++ (renderArrRest lvlA xs ++ '\n' :: (pad lvlB ++ (']' :: rest))))) from rfl,
                skipWs_pad,
                skipWs_render lvlA x
                  (renderArrRest lvlA xs ++ '\n' :: (pad lvlB ++ (']' :: rest))) hwf'.1]
            exact ihP x lvlA _ hneed'.1 hwf'.1 (arrRest_break lvlA xs (pad lvlB ++ (']' :: rest)))
        rw [show renderArrRest lvlA (x :: xs) ++ '\n' :: (pad lvlB ++ (']' :: rest))
            = ',' :: ('\n' :: (pad lvlA ++ (render lvlA x
                ++ (renderArrRest lvlA xs ++ '\n' :: (pad lvlB ++ (']' :: rest))))))
            from by simp [renderArrRest]]
        conv_lhs => rw [parseArrRest]
        rw [skipWs_comma]
        simp only [reduceIte, hv, ihQ xs lvlA lvlB rest hneed'.2 hwf'.2]
        rfl
    · intro ms lvlA lvlB rest hneed hwf
      cases ms with
      | nil =>
        rw [show renderObjRest lvlA [] ++ '\n' :: (pad lvlB ++ ('}' :: rest))
            = '\n' :: (pad lvlB ++ ('}' :: rest)) from by simp [renderObjRest]]
        conv_lhs => rw [parseObjRest]
        rw [skipWs_nl_pad lvlB '}' rest (by decide)]
        rfl
      | cons m ms =>
        obtain ⟨k, v⟩ := m
        have hneed' : need v ≤ fuel ∧ needObj ms ≤ fuel := by
          simp [needObj] at hneed
          omega
        have hwf' : wfJson v = true ∧ wfObj ms = true := bool_and_parts _ _ hwf
        have hv : parseValue fuel (' ' :: (render lvlA v
            ++ (renderObjRest lvlA ms ++ '\n' :: (pad lvlB ++ ('}' :: rest)))))
            = some (v, renderObjRest lvlA ms ++ '\n' :: (pad lvlB ++ ('}' :: rest))) := by
          cases fuel with
          | zero => exact absurd (le_trans (one_le_need v) hneed'.1) (by omega)
          | succ g =>
            rw [parseValue_skip g _,
                show skipWs (' ' :: (render lvlA v
                    ++ (renderObjRest lvlA ms ++ '\n' :: (pad lvlB ++ ('}' :: rest)))))
                  = skipWs (render lvlA v
                    ++ (renderObjRest lvlA ms ++ '\n' :: (pad lvlB ++ ('}' :: rest)))) from rfl,
                skipWs_render lvlA v
                  (renderObjRest lvlA ms ++ '\n' :: (pad lvlB ++ ('}' :: rest))) hwf'.1]
            exact ihP v lvlA _ hneed'.1 hwf'.1 (objRest_break lvlA ms (pad lvlB ++ ('}' :: rest)))
        rw [show renderObjRest lvlA ((k, v) :: ms) ++ '\n' :: (pad lvlB ++ ('}' :: rest))
            = ',' :: ('\n' :: (pad lvlA ++ ('"' :: (escChars k.data
                ++ ('"' :: (':' :: (' ' :: (render lvlA v
                ++ (renderObjRest lvlA ms ++ '\n' :: (pad lvlB ++ ('}' :: rest)))))))))))
            from by simp [renderObjRest, renderMember]]
        conv_lhs => rw [parseObjRest]
        rw [skipWs_comma]
        simp only [reduceIte,
          skipWs_nl_pad lvlA '"' (escChars k.data ++ ('"' :: (':' :: (' ' :: (render lvlA v
            ++ (renderObjRest lvlA ms ++ '\n' :: (pad lvlB ++ ('}' :: rest)))))))) (by decide),
          psb_escChars k.data (':' :: (' ' :: (render lvlA v
            ++ (renderObjRest lvlA ms ++ '\n' :: (pad lvlB ++ ('}' :: rest))))))
            ((escChars k.data ++ ('"' :: (':' :: (' ' :: (render lvlA v
              ++ (renderObjRest lvlA ms ++ '\n' :: (pad lvlB ++ ('}' :: rest)))))))).length + 1)
            (by
              have := escChars_length k.data
              simp only [List.length_append, List.length_cons]
              omega),
          skipWs_colon, hv, ihR ms lvlA lvlB rest hneed'.2 hwf'.2]
        rfl

theorem need_le_render : ∀ n : Nat,
    (∀ j, need j ≤ n → wfJson j = true → ∀ lvl, need j ≤ (render lvl j).length)
  ∧ (∀ xs, needList xs ≤ n → wfList xs = true →
       ∀ lvl, needList xs ≤ (renderArrRest lvl xs).length + 1)
  ∧ (∀ ms, needObj ms ≤ n → wfObj ms = true →
       ∀ lvl, needObj ms ≤ (renderObjRest lvl ms).length + 1) := by
  intro n
  induction n with
  | zero =>
    refine ⟨?_, ?_, ?_⟩
    · intro j h _
      exact absurd (le_trans (one_le_need j) h) (by omega)
    · intro xs h _
      exact absurd (le_trans (one_le_needList xs) h) (by omega)
    · intro ms h _
      exact absurd (le_trans (one_le_needObj ms) h) (by omega)
  | succ n ih =>
    obtain ⟨ih1, ih2, ih3⟩ := ih
    refine ⟨?_, ?_, ?_⟩
    · intro j h hwf lvl
      cases j with
      | null => simp [need, render]
      | bool b => cases b <;> simp [need, render]
      | num m =>
        obtain ⟨c0, cs0, hx0, _, _, _⟩ := render_head lvl (Json.num m) rfl
        rw [hx0]
        simp [need]
      | fnum f =>
        cases f with
        | nan => simp [need, render, floatChars]
        | inf => simp [need, render, floatChars]
        | ninf => simp [need, render, floatChars]
        | finite r =>
          obtain ⟨c, cs, hr, _⟩ := validFloatRepr_head r hwf
          rw [show render lvl (Json.fnum (PyFloat.finite r)) = c :: cs from by
            simp [render, floatChars, hr]]
          simp [need]
      | str s =>
        obtain ⟨c0, cs0, hx0, _, _, _⟩ := render_head lvl (Json.str s) rfl
        rw [hx0]
        simp [need]
      | arr xs =>
        cases xs with
        | nil => simp [need, render]
        | cons x xs =>
          have hb : need x ≤ n ∧ needList xs ≤ n := by
            simp [need] at h
            omega
          have hwf' : wfJson x = true ∧ wfList xs = true := bool_and_parts _ _ hwf
          have h1 := ih1 x hb.1 hwf'.1 (lvl + 4)
          have h2 := ih2 xs hb.2 hwf'.2 (lvl + 4)
          simp [need, render]
          omega
      | obj ms =>
        cases ms with
        | nil => simp [need, render]
        | cons m ms =>
          obtain ⟨k, v⟩ := m
          have hb : need v ≤ n ∧ needObj ms ≤ n := by
            simp [need] at h
            omega
          have hwfo : wfObj ((k, v) :: ms) = true := (bool_and_parts _ _ hwf).2
          have hwf' : wfJson v = true ∧ wfObj ms = true := bool_and_parts _ _ hwfo
          have h1 := ih1 v hb.1 hwf'.1 (lvl + 4)
          have h2 := ih3 ms hb.2 hwf'.2 (lvl + 4)
          simp [need, render, renderMember]
          omega
    · intro xs h hwf lvl
      cases xs with
      | nil => simp [needList, renderArrRest]
      | cons x xs =>
        have hb : need x ≤ n ∧ needList xs ≤ n := by
          simp [needList] at h
          omega
        have hwf' : wfJson x = true ∧ wfList xs = true := bool_and_parts _ _ hwf
        have h1 := ih1 x hb.1 hwf'.1 lvl
        have h2 := ih2 xs hb.2 hwf'.2 lvl
        simp [needList, renderArrRest]
        omega
    · intro ms h hwf lvl
      cases ms with
      | nil => simp [needObj, renderObjRest]
      | cons m ms =>
        obtain ⟨k, v⟩ := m
        have hb : need v ≤ n ∧ needObj ms ≤ n := by
          simp [needObj] at h
          omega
        have hwf' : wfJson v = true ∧ wfObj ms = true := bool_and_parts _ _ hwf
        have h1 := ih1 v hb.1 hwf'.1 lvl
        have h2 := ih3 ms hb.2 hwf'.2 lvl
        simp [needObj, renderObjRest, renderMember]
        omega

/-- Parsing the full rendering of any well-formed value (with
`json.load`'s trailing-input check) recovers the value exactly. -/
theorem json_load_render (j : Json) (hwf : wfJson j = true) :
    json_load (render 0 j) = some j := by
  have hfuel : need j ≤ (render 0 j).length + 1 :=
    le_trans ((need_le_render (need j)).1 j (le_refl _) hwf 0) (Nat.le_succ _)
  have h := (parse_render ((render 0 j).length + 1)).1 j 0 [] hfuel hwf
    (fun c cs2 hc => List.noConfusion hc)
  rw [List.append_nil] at h
  unfold json_load
  rw [h]
  rfl

theorem ratEqB_refl (v : Int × Int) : ratEqB v v = true := by
  obtain ⟨m, e⟩ := v
  simp [ratEqB]

theorem need_arr_eq (xs : List Json) : need (Json.arr xs) = needList xs := by
  cases xs <;> rfl

theorem need_obj_eq (ms : List (String × Json)) : need (Json.obj ms) = needObj ms := by
  cases ms <;> rfl

theorem need_mem_list (x : Json) (xs : List Json) (h : x ∈ xs) :
    need x < needList xs := by
  induction xs with
  | nil => simp at h
  | cons y ys ih =>
    rcases List.mem_cons.mp h with h | h
    · subst h
      simp [needList]
      omega
    · have := ih h
      simp [needList]
      omega

theorem need_mem_obj (p : String × Json) (ms : List (String × Json)) (h : p ∈ ms) :
    need p.2 < needObj ms := by
  induction ms with
  | nil => simp at h
  | cons q ms ih =>
    obtain ⟨k0, v0⟩ := q
    rcases List.mem_cons.mp h with h | h
    · subst h
      simp [needObj]
      omega
    · have := ih h
      simp [needObj]
      omega

theorem wfList_mem (xs : List Json) (x : Json) (hwf : wfList xs = true) (h : x ∈ xs) :
    wfJson x = true := by
  induction xs with
  | nil => simp at h
  | cons y ys ih =>
    have h2 := bool_and_parts _ _ hwf
    rcases List.mem_cons.mp h with h | h
    · subst h
      exact h2.1
    · exact ih h2.2 h

theorem wfObj_mem (ms : List (String × Json)) (p : String × Json)
    (hwf : wfObj ms = true) (h : p ∈ ms) : wfJson p.2 = true := by
  induction ms with
  | nil => simp at h
  | cons q ms ih =>
    obtain ⟨k0, v0⟩ := q
    have h2 := bool_and_parts _ _ hwf
    rcases List.mem_cons.mp h with h | h
    · subst h
      exact h2.1
    · exact ih h2.2 h

theorem noNaNList_mem (xs : List Json) (x : Json) (hnn : noNaNList xs = true) (h : x ∈ xs) :
    noNaN x = true := by
  induction xs with
  | nil => simp at h
  | cons y ys ih =>
    have h2 := bool_and_parts _ _ hnn
    rcases List.mem_cons.mp h with h | h
    · subst h
      exact h2.1
    · exact ih h2.2 h

theorem noNaNObj_mem (ms : List (String × Json)) (p : String × Json)
    (hnn : noNaNObj ms = true) (h : p ∈ ms) : noNaN p.2 = true := by
  induction ms with
  | nil => simp at h
  | cons q ms ih =>
    obtain ⟨k0, v0⟩ := q
    have h2 := bool_and_parts _ _ hnn
    rcases List.mem_cons.mp h with h | h
    · subst h
      exact h2.1
    · exact ih h2.2 h

theorem dictGet_mem_isSome (ms : List (String × Json)) (k : String) (v : Json)
    (h : (k, v) ∈ ms) : (dictGet ms k).isSome = true := by
  induction ms with
  | nil => simp at h
  | cons q ms ih =>
    obtain ⟨k0, v0⟩ := q
    rcases List.mem_cons.mp h with h | h
    · injection h with h1 h2
      simp [dictGet, h1.symm]
    · by_cases hk : k0 = k
      · simp [dictGet, hk]
      · simp [dictGet, hk, ih h]

theorem dictGet_nodup_self (ms : List (String × Json)) (k : String) (v : Json)
    (hnd : nodupKeys ms = true) (h : (k, v) ∈ ms) : dictGet ms k = some v := by
  induction ms with
  | nil => simp at h
  | cons q ms ih =>
    obtain ⟨k0, v0⟩ := q
    have hnd' := bool_and_parts _ _ hnd
    rcases List.mem_cons.mp h with h | h
    · injection h with h1 h2
      simp [dictGet, ← h1, ← h2]
    · by_cases hk : k0 = k
      · subst hk
        have hmem := dictGet_mem_isSome ms k0 v h
        have h1 := hnd'.1
        rw [Option.isNone_iff_eq_none] at h1
        rw [h1] at hmem
        simp at hmem
      · simp [dictGet, hk, ih hnd'.2 h]

theorem pyEqList_refl (xs : List Json) (h : ∀ x ∈ xs, pyEq x x = true) :
    pyEqList xs xs = true := by
  induction xs with
  | nil => rfl
  | cons x xs ih =>
    simp only [pyEqList, Bool.and_eq_true]
    exact ⟨h x (by simp), ih (fun y hy => h y (by simp [hy]))⟩

theorem pyEqObjMem_of (sub ns : List (String × Json))
    (h : ∀ k v, (k, v) ∈ sub → ∃ w, dictGet ns k = some w ∧ pyEq v w = true) :
    pyEqObjMem sub ns = true := by
  induction sub with
  | nil => rfl
  | cons q sub ih =>
    obtain ⟨k0, v0⟩ := q
    obtain ⟨w, hw, hpe⟩ := h k0 v0 (by simp)
    simp only [pyEqObjMem, hw, Bool.and_eq_true]
    exact ⟨hpe, ih (fun k v hkv => h k v (by simp [hkv]))⟩

/-- Python `==` is reflexive on well-formed NaN-free values (comparing a
fresh copy with the original, no identity sharing). -/
theorem pyEq_refl_aux : ∀ n : Nat, ∀ j, need j ≤ n → wfJson j = true → noNaN j = true →
    pyEq j j = true := by
  intro n
  induction n with
  | zero =>
    intro j h _ _
    exact absurd (le_trans (one_le_need j) h) (by omega)
  | succ n ih =>
    intro j h hwf hnn
    cases j with
    | null => rfl
    | bool b => cases b <;> rfl
    | num m =>
      have he : pyEq (Json.num m) (Json.num m) = ratEqB (m, 0) (m, 0) := rfl
      rw [he]
      exact ratEqB_refl (m, 0)
    | fnum f =>
      cases f with
      | nan => simp [noNaN] at hnn
      | inf => rfl
      | ninf => rfl
      | finite r =>
        have hs : (pyFloatVal r).isSome = true := hwf
        obtain ⟨v, hv⟩ := Option.isSome_iff_exists.mp hs
        have he : pyEq (Json.fnum (PyFloat.finite r)) (Json.fnum (PyFloat.finite r))
            = (match pyFloatVal r, pyFloatVal r with
               | some v, some w => ratEqB v w
               | _, _ => false) := rfl
        rw [he, hv]
        exact ratEqB_refl v
    | str s =>
      have he : pyEq (Json.str s) (Json.str s) = decide (s = s) := rfl
      rw [he]
      simp
    | arr xs =>
      have he : pyEq (Json.arr xs) (Json.arr xs) = pyEqList xs xs := rfl
      rw [he]
      rw [need_arr_eq] at h
      refine pyEqList_refl xs (fun x hx => ih x ?_ (wfList_mem xs x hwf hx)
        (noNaNList_mem xs x hnn hx))
      have := need_mem_list x xs hx
      omega
    | obj ms =>
      have he : pyEq (Json.obj ms) (Json.obj ms)
          = (decide (ms.length = ms.length) && pyEqObjMem ms ms) := rfl
      rw [he]
      rw [need_obj_eq] at h
      have hnd : nodupKeys ms = true := (bool_and_parts _ _ hwf).1
      have hwfo : wfObj ms = true := (bool_and_parts _ _ hwf).2
      simp only [Bool.and_eq_true, decide_eq_true_eq]
      refine ⟨by simp, pyEqObjMem_of ms ms (fun k v hkv => ⟨v,
        dictGet_nodup_self ms k v hnd hkv, ih v ?_ (wfObj_mem ms (k, v) hwfo hkv)
          (noNaNObj_mem ms (k, v) hnn hkv)⟩)⟩
      have := need_mem_obj (k, v) ms hkv
      simp only at this
      omega

theorem pyEq_refl (j : Json) (hwf : wfJson j = true) (hnn : noNaN j = true) :
    pyEq j j = true :=
  pyEq_refl_aux (need j) j (le_refl _) hwf hnn

set_option maxRecDepth 16384 in
/-- C10 counterexample: a run whose tool result files all hold the float
`NaN` — which Python's `json.load` turns into `float('nan')` and
`json.dump` writes back as `NaN` — produces a Results Mapping whose summary
text parses back to the structurally identical mapping, yet the freshly
parsed mapping is NOT `==`-equal to the in-memory one: `NaN` does not equal
itself, so "parsing the summary yields a mapping equal to the in-memory
Results Mapping" fails on this reachable run. -/
theorem c10_counterexample :
    dictGet (mainRun envNaN 0 1 []).1 "VQA" = some (Json.fnum PyFloat.nan)
    ∧ json_load (summary_text envNaN 0 1 [])
        = some (Json.obj (mainRun envNaN 0 1 []).1)
    ∧ pyEq (Json.obj (mainRun envNaN 0 1 []).1)
        (Json.obj (mainRun envNaN 0 1 []).1) = false :=
  ⟨rfl, rfl, rfl⟩

/-- C10 (amended): for every run whose accumulated Results Mapping is
well-formed (each stored tool result is a value `json.load` can actually
produce: complete float tokens, duplicate-free object keys) and contains no
`NaN`, parsing the JSON text written to the fixed summary file succeeds and
yields a mapping Python-equal (and structurally identical) to the in-memory
Results Mapping at the moment of writing. -/
theorem c10_nan_free_roundtrip (E : Env) (start step : Int) (cats : List String)
    (hwf : wfJson (Json.obj (mainRun E start step cats).1) = true)
    (hnn : noNaN (Json.obj (mainRun E start step cats).1) = true) :
    ∃ j, json_load (summary_text E start step cats) = some j
      ∧ pyEq j (Json.obj (mainRun E start step cats).1) = true :=
  ⟨Json.obj (mainRun E start step cats).1,
   json_load_render _ hwf,
   pyEq_refl _ hwf hnn⟩

/-- C10 witness: at a concrete run (all result files absent, so the mapping
holds only placeholder strings) both hypotheses hold by computation and the
amended round trip applies. -/
theorem c10_witness :
    wfJson (Json.obj (mainRun envAllOkAbsent 0 1 []).1) = true
    ∧ noNaN (Json.obj (mainRun envAllOkAbsent 0 1 []).1) = true
    ∧ ∃ j, json_load (summary_text envAllOkAbsent 0 1 []) = some j
        ∧ pyEq j (Json.obj (mainRun envAllOkAbsent 0 1 []).1) = true :=
  ⟨rfl, rfl, c10_nan_free_roundtrip envAllOkAbsent 0 1 [] rfl rfl⟩
